import Mathlib

/-!
A verification development for `gaia_interchange/coldstart2gaia.py`, the
ColdStart-to-GAIA interchange converter.  The Python source is shallowly
embedded: the RDF graph is a list of triples, rdflib terms are an inductive
`Term`, Python `None`-able floats are `Option ℚ`, raised exceptions are an
`Except` error channel, and the mutable closure state of
`convert_coldstart_to_gaia` (the output graph, the blank-node supply, the
node-identifier generators, the `object_to_uri` memo table, and the
untranslatable-assertion counters) is threaded through an explicit state
monad `ConvM`.
-/

/-- RDF terms: URI references, blank nodes (identified by a run-unique
counter value), and string / integer / numeric literals. The URI text is
abbreviated relative to the real namespaces; only distinctness matters. -/
inductive Term where
  | uri (s : String)
  | bnode (id : Nat)
  | litStr (s : String)
  | litInt (n : Int)
  | litRat (q : ℚ)
deriving DecidableEq, Repr

abbrev Triple := Term × Term × Term

abbrev Graph := List Triple

/-- Vocabulary constants of the AIDA namespace used by the converter. -/
def AIDA.system : Term := Term.uri "aida:system"

def AIDA.confidence : Term := Term.uri "aida:confidence"

def AIDA.confidenceValue : Term := Term.uri "aida:confidenceValue"

def AIDA.TextProvenance : Term := Term.uri "aida:TextProvenance"

def AIDA.source : Term := Term.uri "aida:source"

def AIDA.startOffset : Term := Term.uri "aida:startOffset"

def AIDA.endOffsetInclusive : Term := Term.uri "aida:endOffsetInclusive"

def AIDA.justifiedBy : Term := Term.uri "aida:justifiedBy"

def AIDA.link : Term := Term.uri "aida:link"

def AIDA.linkTarget : Term := Term.uri "aida:linkTarget"

def RDF.type : Term := Term.uri "rdf:type"

def RDF.Statement : Term := Term.uri "rdf:Statement"

def RDF.subject : Term := Term.uri "rdf:subject"

def RDF.predicate : Term := Term.uri "rdf:predicate"

def RDF.object : Term := Term.uri "rdf:object"

def SKOS.prefLabel : Term := Term.uri "skos:prefLabel"

/-- Program-ontology identifiers returned by `to_ontology_type`. -/
def AIDA_PROGRAM_ONTOLOGY.Person : Term := Term.uri "ldcOnt:Person"

def AIDA_PROGRAM_ONTOLOGY.Organization : Term := Term.uri "ldcOnt:Organization"

def AIDA_PROGRAM_ONTOLOGY.Location : Term := Term.uri "ldcOnt:Location"

def AIDA_PROGRAM_ONTOLOGY.Facility : Term := Term.uri "ldcOnt:Facility"

def AIDA_PROGRAM_ONTOLOGY.GeopoliticalEntity : Term := Term.uri "ldcOnt:GeopoliticalEntity"

def AIDA_PROGRAM_ONTOLOGY.String : Term := Term.uri "ldcOnt:String"

/-- ColdStart source nodes (`flexnlp_sandbox.formats.tac.coldstart`).  A node
is an entity, an event, or a string node; `other` stands for any further
`Node` subclass, which `to_identifier` rejects.  Source-node identity is
modelled by the payload `id`. -/
inductive Node where
  | entity (id : Nat)
  | event (id : Nat)
  | string (id : Nat)
  | other (id : Nat)
deriving DecidableEq, Repr

def Node.isEntityNode : Node → Bool
  | .entity _ => true
  | _ => false

def Node.isEventNode : Node → Bool
  | .event _ => true
  | _ => false

def Node.isStringNode : Node → Bool
  | .string _ => true
  | _ => false

/-- A justification span; `start` is inclusive and `endOff` (the Python
`Span.end`, renamed because `end` is a Lean keyword) is exclusive. -/
structure Span where
  start : Int
  endOff : Int
deriving DecidableEq, Repr

/-- ColdStart provenance: a document id plus predicate justification spans. -/
structure Provenance where
  doc_id : String
  predicate_justifications : List Span
deriving DecidableEq, Repr

/-- `TypeAssertion(sbj, obj)`: `obj` is the ontology type code string. -/
structure TypeAssertion where
  sbj : Node
  obj : String
deriving DecidableEq, Repr

structure RelationAssertion where
  sbj : Node
  obj : Node
  relation : String
  justifications : Provenance
deriving DecidableEq, Repr

/-- The ColdStart event-argument assertion class (`EventMentionAssertion`
in the library's naming). -/
structure EventMentionAssertion where
  sbj : Node
  argument : Node
  argument_role : String
  justifications : Provenance
deriving DecidableEq, Repr

/-- `EntityMentionAssertion`: `obj` is the mention string, `type` the
mention kind tag. -/
structure EntityMentionAssertion where
  sbj : Node
  obj : String
  type : String
  justifications : Provenance
deriving DecidableEq, Repr

structure LinkAssertion where
  sbj : Node
  global_id : String
deriving DecidableEq, Repr

/-- The mention-kind tag that triggers a `skos:prefLabel` triple.  The
concrete string is from the external ColdStart library; only equality with
`EntityMentionAssertion.type` matters. -/
def CANONICAL_MENTION : String := "canonical_mention"

/-- The closed union of ColdStart assertion classes that can occur in
`cs_kb.all_assertions`; dispatch in the driver is by class. -/
inductive Assertion where
  | typeAssertion (a : TypeAssertion)
  | entityMentionAssertion (a : EntityMentionAssertion)
  | linkAssertion (a : LinkAssertion)
  | relationAssertion (a : RelationAssertion)
  | eventMentionAssertion (a : EventMentionAssertion)
deriving DecidableEq, Repr

/-- The assertion's Python class, the key of the untranslatable-count
table (`str(assertion.__class__)`). -/
inductive AssertionKind where
  | typeAssertion
  | entityMentionAssertion
  | linkAssertion
  | relationAssertion
  | eventMentionAssertion
deriving DecidableEq, Repr

def Assertion.kind : Assertion → AssertionKind
  | .typeAssertion _ => .typeAssertion
  | .entityMentionAssertion _ => .entityMentionAssertion
  | .linkAssertion _ => .linkAssertion
  | .relationAssertion _ => .relationAssertion
  | .eventMentionAssertion _ => .eventMentionAssertion

/-- Every ColdStart assertion class has a `sbj` attribute; this models the
attribute access `assertion.sbj` on the driver's loop variable. -/
def Assertion.sbj : Assertion → Node
  | .typeAssertion a => a.sbj
  | .entityMentionAssertion a => a.sbj
  | .linkAssertion a => a.sbj
  | .relationAssertion a => a.sbj
  | .eventMentionAssertion a => a.sbj

/-- Exceptions raised inside the conversion: `check_arg` /
`check_isinstance` failures, `check_not_none` failures, and
`NotImplementedError`. Each carries its message. -/
inductive ConvError where
  | checkArg (msg : String)
  | checkNotNone (msg : String)
  | notImplemented (msg : String)
deriving DecidableEq, Repr

/-- Node generation strategies.  `blankGen` is `BlankNodeGenerator`
(`BNode()` drawn from the run's blank-node supply); `sequentialGen` is
`SequentialIDNodeGenerator` with its own counter.  The `UUIDNodeGenerator`
strategy is nondeterministic (fresh UUIDs) and unused by the source's
configuration paths, so it is not modelled. -/
inductive NodeGenerator where
  | blankGen
  | sequentialGen (base_uri : String) (next_id : Nat)
deriving DecidableEq, Repr

/-- `next_node` on a generator, also threading the global blank-node
supply counter: returns the minted term, the updated generator, and the
updated blank supply. -/
def NodeGenerator.next_node : NodeGenerator → Nat → Term × NodeGenerator × Nat
  | .blankGen, nb => (Term.bnode nb, .blankGen, nb + 1)
  | .sequentialGen base n, nb => (Term.uri (base ++ "/" ++ toString n), .sequentialGen base (n + 1), nb)

/-- Association-list lookup for the `object_to_uri` memo dictionary. -/
def lookupNode : List (Node × Term) → Node → Option Term
  | [], _ => none
  | (k, v) :: rest, n => if n = k then some v else lookupNode rest n

/-- Association-list lookup for the `AIDA_PROGRAM_ONTOLOGY_LUT` extension
dictionary. -/
def lookupStr : List (String × Term) → String → Option Term
  | [], _ => none
  | (k, v) :: rest, c => if c = k then some v else lookupStr rest c

/-- The mutable state shared by the closures of
`convert_coldstart_to_gaia`: the blank-node supply, the four generators of
the converter, the `object_to_uri` memo table, the system node, the
ontology extension table, the output graph `g`, and the
`untranslatable_assertions` counter table. -/
structure ConvState where
  nextBlank : Nat
  entity_node_generator : NodeGenerator
  event_node_generator : NodeGenerator
  string_node_generator : NodeGenerator
  assertion_node_generator : NodeGenerator
  object_to_uri : List (Node × Term)
  system_node : Term
  lut : List (String × Term)
  graph : Graph
  untranslatable_assertions : List (AssertionKind × Nat)
deriving DecidableEq, Repr

/-- The conversion monad: state plus an exception channel.  An exception
leaves the state mutated so far in place (Python semantics), but aborts
the computation. -/
def ConvM (α : Type) : Type := ConvState → Except ConvError α × ConvState

def ConvM.pure (a : α) : ConvM α := fun s => (Except.ok a, s)

def ConvM.bind (m : ConvM α) (f : α → ConvM β) : ConvM β := fun s =>
  match m s with
  | (Except.ok a, s2) => f a s2
  | (Except.error e, s2) => (Except.error e, s2)

instance : Monad ConvM where
  pure := ConvM.pure
  bind := ConvM.bind

def throwE (e : ConvError) : ConvM α := fun s => (Except.error e, s)

def getS : ConvM ConvState := fun s => (Except.ok s, s)

def modifyS (f : ConvState → ConvState) : ConvM Unit := fun s => (Except.ok (), f s)

def liftE : Except ConvError α → ConvM α
  | Except.ok a => ConvM.pure a
  | Except.error e => throwE e

/-- `flexnlp.utils.preconditions.check_arg`: raise unless the condition
holds. -/
def check_arg (b : Bool) (msg : String) : ConvM Unit :=
  if b then ConvM.pure () else throwE (ConvError.checkArg msg)

/-- `flexnlp.utils.preconditions.check_not_none`: raise when the optional
value is `None`. -/
def check_not_none (x : Option α) (msg : String) : ConvM Unit :=
  match x with
  | some _ => ConvM.pure ()
  | none => throwE (ConvError.checkNotNone msg)

/-- `BNode()`: mint a fresh blank node from the run's supply. -/
def freshBNode : ConvM Term := fun s =>
  (Except.ok (Term.bnode s.nextBlank), { s with nextBlank := s.nextBlank + 1 })

/-- `g.add(triple)`. -/
def gAdd (t : Triple) : ConvM Unit :=
  modifyS fun s => { s with graph := s.graph ++ [t] }

/-- Which of the converter's four generator fields to draw from. -/
inductive GenKind where
  | entityGen
  | eventGen
  | stringGen
  | assertionGen
deriving DecidableEq, Repr

/-- `self.<category>_node_generator.next_node()`. -/
def nextNode (k : GenKind) : ConvM Term := fun s =>
  match k with
  | .entityGen =>
    let r := s.entity_node_generator.next_node s.nextBlank
    (Except.ok r.1, { s with entity_node_generator := r.2.1, nextBlank := r.2.2 })
  | .eventGen =>
    let r := s.event_node_generator.next_node s.nextBlank
    (Except.ok r.1, { s with event_node_generator := r.2.1, nextBlank := r.2.2 })
  | .stringGen =>
    let r := s.string_node_generator.next_node s.nextBlank
    (Except.ok r.1, { s with string_node_generator := r.2.1, nextBlank := r.2.2 })
  | .assertionGen =>
    let r := s.assertion_node_generator.next_node s.nextBlank
    (Except.ok r.1, { s with assertion_node_generator := r.2.1, nextBlank := r.2.2 })

/-- `associate_with_system`: mark an identifier as generated by this
system. -/
def associate_with_system (identifier : Term) : ConvM Unit := do
  let s ← getS
  gAdd (identifier, AIDA.system, s.system_node)

/-- `mark_single_assertion_confidence`: reify a confidence value onto a
node, tagging the confidence blank node with the system. -/
def mark_single_assertion_confidence (reified_assertion : Term) (confidence : ℚ) : ConvM Unit := do
  let confidence_blank_node ← freshBNode
  gAdd (reified_assertion, AIDA.confidence, confidence_blank_node)
  gAdd (confidence_blank_node, AIDA.confidenceValue, Term.litRat confidence)
  let s ← getS
  gAdd (confidence_blank_node, AIDA.system, s.system_node)

/-- `to_identifier`: convert a ColdStart node to an RDF identifier,
memoized in `object_to_uri`; previously converted nodes yield the same
identifier. -/
def to_identifier (node : Node) : ConvM Term := do
  check_arg (node.isEntityNode || node.isEventNode || node.isStringNode)
    "node must be an EntityNode, EventNode or StringNode"
  let s ← getS
  match lookupNode s.object_to_uri node with
  | some uri => ConvM.pure uri
  | none => do
    let uri ← (match node with
      | .entity _ => nextNode .entityGen
      | .event _ => nextNode .eventGen
      | .string _ => nextNode .stringGen
      | .other _ => throwE (ConvError.notImplemented "Cannot make a URI"))
    modifyS (fun s2 => { s2 with object_to_uri := s2.object_to_uri ++ [(node, uri)] })
    ConvM.pure uri

/-- `to_ontology_type`: resolve a ColdStart ontology type code.  Codes
containing the namespace separator fail first; then the six built-in short
codes; then the extension table; otherwise an unknown-type failure. -/
def to_ontology_type (lut : List (String × Term)) (ontology_type : String) : Except ConvError Term :=
  if ontology_type.data.contains ':' then
    Except.error (ConvError.notImplemented "Not implemented yet")
  else if ontology_type = "PER" then Except.ok AIDA_PROGRAM_ONTOLOGY.Person
  else if ontology_type = "ORG" then Except.ok AIDA_PROGRAM_ONTOLOGY.Organization
  else if ontology_type = "LOC" then Except.ok AIDA_PROGRAM_ONTOLOGY.Location
  else if ontology_type = "FAC" then Except.ok AIDA_PROGRAM_ONTOLOGY.Facility
  else if ontology_type = "GPE" then Except.ok AIDA_PROGRAM_ONTOLOGY.GeopoliticalEntity
  else if ontology_type = "STRING" ∨ ontology_type = "String" then
    Except.ok AIDA_PROGRAM_ONTOLOGY.String
  else
    match lookupStr lut ontology_type with
    | some t => Except.ok t
    | none =>
      Except.error (ConvError.notImplemented ("Cannot interpret ontology type " ++ ontology_type))

/-- The body of `register_justifications`' loop over
`provenance.predicate_justifications`, written as structural recursion.
`if confidence:` and `if string:` are Python truthiness tests: `None`,
`0.0` and the empty string are falsy. -/
def register_justifications_loop (entity : Term) (doc_id : String) (string : Option String)
    (confidence : Option ℚ) : List Span → ConvM Unit
  | [] => ConvM.pure ()
  | justification :: rest => do
    let justification_node ← freshBNode
    (match confidence with
     | some c => if c = 0 then ConvM.pure () else
         mark_single_assertion_confidence justification_node c
     | none => ConvM.pure ())
    associate_with_system justification_node
    gAdd (justification_node, RDF.type, AIDA.TextProvenance)
    gAdd (justification_node, AIDA.source, Term.litStr doc_id)
    gAdd (justification_node, AIDA.startOffset, Term.litInt justification.start)
    gAdd (justification_node, AIDA.endOffsetInclusive, Term.litInt (justification.endOff + 1))
    gAdd (entity, AIDA.justifiedBy, justification_node)
    (match string with
     | some str => if str = "" then ConvM.pure () else
         gAdd (justification_node, SKOS.prefLabel, Term.litStr str)
     | none => ConvM.pure ())
    register_justifications_loop entity doc_id string confidence rest

/-- `register_justifications`: mint one text-provenance node per
justification span of the provenance, with optional confidence and
preferred-label string. -/
def register_justifications (entity : Term) (provenance : Provenance)
    (string : Option String) (confidence : Option ℚ) : ConvM Unit :=
  register_justifications_loop entity provenance.doc_id string confidence
    provenance.predicate_justifications

/-- `translate_type`: type assertions must carry no confidence; only
entity subjects are handled (events are an acknowledged gap and
decline). -/
def translate_type (cs_assertion : TypeAssertion) (confidence : Option ℚ) : ConvM Bool := do
  check_arg confidence.isNone "Type assertions should not have confidences in ColdStart"
  if cs_assertion.sbj.isEntityNode then do
    let rdf_assertion ← nextNode .assertionGen
    let entity ← to_identifier cs_assertion.sbj
    let s ← getS
    let ontology_type ← liftE (to_ontology_type s.lut cs_assertion.obj)
    gAdd (rdf_assertion, RDF.type, RDF.Statement)
    gAdd (rdf_assertion, RDF.subject, entity)
    gAdd (rdf_assertion, RDF.predicate, RDF.type)
    gAdd (rdf_assertion, RDF.object, ontology_type)
    associate_with_system rdf_assertion
    ConvM.pure true
  else
    ConvM.pure false

/-- `translate_relation`.  Note that the `return True` of the source sits
at function level, outside the entity-subject conditional: a relation
whose subject is not an entity node is reported as translated although
nothing was emitted. -/
def translate_relation (cs_assertion : RelationAssertion) (confidence : Option ℚ) : ConvM Bool := do
  check_not_none confidence "Relations must have confidences"
  if cs_assertion.sbj.isEntityNode then do
    let sbj ← to_identifier cs_assertion.sbj
    let obj ← to_identifier cs_assertion.obj
    let rdf_assertion ← nextNode .assertionGen
    let s ← getS
    let relation_type ← liftE (to_ontology_type s.lut cs_assertion.relation)
    gAdd (rdf_assertion, RDF.type, relation_type)
    gAdd (rdf_assertion, RDF.subject, sbj)
    gAdd (rdf_assertion, RDF.object, obj)
    (match confidence with
     | some c => do
       let confidence_node ← freshBNode
       gAdd (rdf_assertion, AIDA.confidence, confidence_node)
       gAdd (confidence_node, AIDA.confidenceValue, Term.litRat c)
     | none => ConvM.pure ())
    register_justifications rdf_assertion cs_assertion.justifications none none
  else
    ConvM.pure ()
  ConvM.pure true

/-- `translate_event_argument`; as in the source, `return True` sits at
function level, outside the event-subject conditional, and the
required-confidence message is the copy-pasted relation one. -/
def translate_event_argument (cs_assertion : EventMentionAssertion) (confidence : Option ℚ) :
    ConvM Bool := do
  check_not_none confidence "Relations must have confidences"
  if cs_assertion.sbj.isEventNode then do
    let sbj ← to_identifier cs_assertion.sbj
    let obj ← to_identifier cs_assertion.argument
    let rdf_assertion ← nextNode .assertionGen
    let s ← getS
    let role_type ← liftE (to_ontology_type s.lut cs_assertion.argument_role)
    gAdd (rdf_assertion, RDF.type, role_type)
    gAdd (rdf_assertion, RDF.subject, sbj)
    gAdd (rdf_assertion, RDF.object, obj)
    (match confidence with
     | some c => do
       let confidence_node ← freshBNode
       gAdd (rdf_assertion, AIDA.confidence, confidence_node)
       gAdd (confidence_node, AIDA.confidenceValue, Term.litRat c)
     | none => ConvM.pure ())
    register_justifications rdf_assertion cs_assertion.justifications none none
  else
    ConvM.pure ()
  ConvM.pure true

/-- `translate_entity_mention`.  The first parameter models the closure
capture of the driver's loop variable `assertion`: the source resolves
`to_identifier(assertion.sbj)` from the enclosing scope rather than from
its own parameter `cs_assertion` (line 275 of the source). -/
def translate_entity_mention (assertion : Assertion) (cs_assertion : EntityMentionAssertion)
    (confidence : Option ℚ) : ConvM Bool := do
  check_not_none confidence "Entity mentions must have confidences"
  let entity_uri ← to_identifier assertion.sbj
  associate_with_system entity_uri
  if cs_assertion.type = CANONICAL_MENTION then
    gAdd (entity_uri, SKOS.prefLabel, Term.litStr cs_assertion.obj)
  register_justifications entity_uri cs_assertion.justifications
    (some cs_assertion.obj) confidence
  ConvM.pure true

/-- `translate_link`. -/
def translate_link (cs_assertion : LinkAssertion) (confidence : Option ℚ) : ConvM Bool := do
  let entity_uri ← to_identifier cs_assertion.sbj
  let link_assertion ← freshBNode
  gAdd (entity_uri, AIDA.link, link_assertion)
  gAdd (link_assertion, AIDA.linkTarget, Term.litStr cs_assertion.global_id)
  (match confidence with
   | some c => do
     let confidence_node ← freshBNode
     gAdd (link_assertion, AIDA.confidence, confidence_node)
     gAdd (confidence_node, AIDA.confidenceValue, Term.litRat c)
   | none => ConvM.pure ())
  ConvM.pure true

/-- The dispatch dictionary `assertions_to_translator`, keyed by assertion
class.  As in the source, `EventMentionAssertion` has no entry:
`translate_event_argument` is defined but never registered.  The first
argument is the driver's loop variable, captured by the entity-mention
closure. -/
def assertions_to_translator (assertion : Assertion) (confidence : Option ℚ) :
    Option (ConvM Bool) :=
  match assertion with
  | .typeAssertion a => some (translate_type a confidence)
  | .entityMentionAssertion a => some (translate_entity_mention assertion a confidence)
  | .linkAssertion a => some (translate_link a confidence)
  | .relationAssertion a => some (translate_relation a confidence)
  | .eventMentionAssertion _ => none

/-- `defaultdict(int)` increment for the untranslatable table. -/
def bumpCount : List (AssertionKind × Nat) → AssertionKind → List (AssertionKind × Nat)
  | [], k => [(k, 1)]
  | (k2, n) :: rest, k => if k = k2 then (k2, n + 1) :: rest else (k2, n) :: bumpCount rest k

/-- Read a count from the untranslatable table (`defaultdict` read). -/
def countOf : List (AssertionKind × Nat) → AssertionKind → Nat
  | [], _ => 0
  | (k2, n) :: rest, k => if k = k2 then n else countOf rest k

/-- The input knowledge base: the assertions in iteration order plus the
side table of optional confidences. -/
structure ColdStartKB where
  all_assertions : List Assertion
  assertions_to_confidences : Assertion → Option ℚ

/-- One iteration of the driver loop: look up the confidence and the
translator; when no translator is registered or the translator declines,
bump the untranslatable count for the assertion's class. -/
def process_assertion (cs_kb : ColdStartKB) (assertion : Assertion) : ConvM Unit := do
  let confidence := cs_kb.assertions_to_confidences assertion
  match assertions_to_translator assertion confidence with
  | none =>
    modifyS (fun s =>
      { s with untranslatable_assertions := bumpCount s.untranslatable_assertions assertion.kind })
  | some assertion_translator => do
    let ok ← assertion_translator
    if ok then
      ConvM.pure ()
    else
      modifyS (fun s =>
        { s with untranslatable_assertions := bumpCount s.untranslatable_assertions assertion.kind })

/-- The driver's `for assertion in cs_kb.all_assertions` loop. -/
def convert_loop (cs_kb : ColdStartKB) : List Assertion → ConvM Unit
  | [] => ConvM.pure ()
  | assertion :: rest => do
    process_assertion cs_kb assertion
    convert_loop cs_kb rest

/-- `ColdStartToGaiaConverter`: the four node generators (all
`BlankNodeGenerator` by default). -/
structure ColdStartToGaiaConverter where
  entity_node_generator : NodeGenerator
  event_node_generator : NodeGenerator
  string_node_generator : NodeGenerator
  assertion_node_generator : NodeGenerator
deriving DecidableEq, Repr

def defaultConverter : ColdStartToGaiaConverter :=
  { entity_node_generator := NodeGenerator.blankGen
    event_node_generator := NodeGenerator.blankGen
    string_node_generator := NodeGenerator.blankGen
    assertion_node_generator := NodeGenerator.blankGen }

/-- The state at the start of `convert_coldstart_to_gaia`: empty memo
table, empty graph, empty untranslatable table, the run's system node and
ontology extension table. -/
def ColdStartToGaiaConverter.initState (self : ColdStartToGaiaConverter)
    (lut : List (String × Term)) (system_uri : String) : ConvState :=
  { nextBlank := 0
    entity_node_generator := self.entity_node_generator
    event_node_generator := self.event_node_generator
    string_node_generator := self.string_node_generator
    assertion_node_generator := self.assertion_node_generator
    object_to_uri := []
    system_node := Term.uri system_uri
    lut := lut
    graph := []
    untranslatable_assertions := [] }

/-- `convert_coldstart_to_gaia`: run the driver loop from the fresh
per-run state; the output graph and the untranslatable table are read off
the final state.  (The final namespace binding of the source is a
serialization readability aid and adds no triples.) -/
def ColdStartToGaiaConverter.convert_coldstart_to_gaia (self : ColdStartToGaiaConverter)
    (lut : List (String × Term)) (system_uri : String) (cs_kb : ColdStartKB) :
    Except ConvError Unit × ConvState :=
  convert_loop cs_kb cs_kb.all_assertions (self.initState lut system_uri)

/-- Functional characterization of the graph delta and final blank-supply
counter produced by `register_justifications_loop` from counter `nb`;
proven equivalent in `register_justifications_loop_run` below. -/
def rj_delta (sysnode entity : Term) (doc_id : String) (string : Option String)
    (confidence : Option ℚ) : List Span → Nat → List Triple × Nat
  | [], nb => ([], nb)
  | justification :: rest, nb =>
    let jn := Term.bnode nb
    let confPart : List Triple × Nat :=
      match confidence with
      | some c =>
        if c = 0 then ([], nb + 1)
        else ([(jn, AIDA.confidence, Term.bnode (nb + 1)),
               (Term.bnode (nb + 1), AIDA.confidenceValue, Term.litRat c),
               (Term.bnode (nb + 1), AIDA.system, sysnode)], nb + 2)
      | none => ([], nb + 1)
    let strPart : List Triple :=
      match string with
      | some str => if str = "" then [] else [(jn, SKOS.prefLabel, Term.litStr str)]
      | none => []
    let next := rj_delta sysnode entity doc_id string confidence rest confPart.2
    (confPart.1 ++
       [(jn, AIDA.system, sysnode),
        (jn, RDF.type, AIDA.TextProvenance),
        (jn, AIDA.source, Term.litStr doc_id),
        (jn, AIDA.startOffset, Term.litInt justification.start),
        (jn, AIDA.endOffsetInclusive, Term.litInt (justification.endOff + 1)),
        (entity, AIDA.justifiedBy, jn)] ++ strPart ++ next.1,
     next.2)

/-- A representative fresh conversion state: default converter (all blank
generators), empty extension table, system URI "sys". -/
def exampleInitState : ConvState := defaultConverter.initState [] "sys"

/-- An event-argument assertion whose subject is an event node. -/
def eventArgSample : EventMentionAssertion :=
  { sbj := Node.event 0, argument := Node.entity 1, argument_role := "Attacker",
    justifications := { doc_id := "D1", predicate_justifications := [{ start := 0, endOff := 5 }] } }

/-- A KB holding exactly `eventArgSample`, with its confidence present. -/
def kbEventArgWithConfidence : ColdStartKB :=
  { all_assertions := [Assertion.eventMentionAssertion eventArgSample]
    assertions_to_confidences := fun _ => some 1 }

/-- A KB holding exactly `eventArgSample`, with its confidence absent. -/
def kbEventArgNoConfidence : ColdStartKB :=
  { all_assertions := [Assertion.eventMentionAssertion eventArgSample]
    assertions_to_confidences := fun _ => none }

/-- A relation assertion whose subject is a string node, not an entity
node. -/
def relationStringSubject : RelationAssertion :=
  { sbj := Node.string 0, obj := Node.entity 1, relation := "cities_of_residence",
    justifications := { doc_id := "D1", predicate_justifications := [{ start := 0, endOff := 5 }] } }

/-- A KB holding exactly `relationStringSubject`, confidence present. -/
def kbRelationStringSubject : ColdStartKB :=
  { all_assertions := [Assertion.relationAssertion relationStringSubject]
    assertions_to_confidences := fun _ => some 2 }

/-- An event-argument assertion whose subject is an entity node, not an
event node. -/
def eventArgEntitySubject : EventMentionAssertion :=
  { sbj := Node.entity 0, argument := Node.entity 1, argument_role := "Attacker",
    justifications := { doc_id := "D1", predicate_justifications := [{ start := 0, endOff := 5 }] } }

/-- A canonical entity mention of the entity node 1. -/
def mentionSample : EntityMentionAssertion :=
  { sbj := Node.entity 1, obj := "Biden", type := CANONICAL_MENTION,
    justifications := { doc_id := "D1", predicate_justifications := [{ start := 0, endOff := 5 }] } }

/-- A link assertion on a different entity node 2, standing in for the
driver loop variable while `mentionSample` is the translator's
parameter. -/
def outerLinkSample : Assertion := Assertion.linkAssertion { sbj := Node.entity 2, global_id := "X" }

/-- A link assertion on entity node 0. -/
def linkSample : LinkAssertion := { sbj := Node.entity 0, global_id := "EXT1" }

/-- A relation assertion between two entity nodes whose relation code is a
resolvable short code. -/
def relationSample : RelationAssertion :=
  { sbj := Node.entity 0, obj := Node.entity 1, relation := "PER",
    justifications := { doc_id := "D1", predicate_justifications := [{ start := 0, endOff := 5 }] } }

/-- A computation only ever appends entries to the `object_to_uri` memo
table (it never removes or overwrites an entry). -/
def cacheAppends {alpha : Type} (m : ConvM alpha) : Prop :=
  ∀ s r s2, m s = (r, s2) → ∃ tail, s2.object_to_uri = s.object_to_uri ++ tail

/-- Whether a triple's predicate is the confidence-reification link. -/
def isConfidenceTriple (trp : Triple) : Bool := decide (trp.2.1 = AIDA.confidence)

theorem ConvM.bind_apply (m : ConvM α) (f : α → ConvM β) (s : ConvState) :
    (m >>= f) s = match m s with
      | (Except.ok a, s2) => f a s2
      | (Except.error e, s2) => (Except.error e, s2) := rfl

theorem ConvM.pure_apply (a : α) (s : ConvState) : (ConvM.pure a) s = (Except.ok a, s) := rfl

theorem freshBNode_apply (s : ConvState) :
    freshBNode s = (Except.ok (Term.bnode s.nextBlank), { s with nextBlank := s.nextBlank + 1 }) :=
  rfl

theorem gAdd_apply (t : Triple) (s : ConvState) :
    gAdd t s = (Except.ok (), { s with graph := s.graph ++ [t] }) := rfl

theorem associate_with_system_apply (t : Term) (s : ConvState) :
    associate_with_system t s =
      (Except.ok (), { s with graph := s.graph ++ [(t, AIDA.system, s.system_node)] }) := rfl

theorem mark_single_assertion_confidence_apply (r : Term) (c : ℚ) (s : ConvState) :
    mark_single_assertion_confidence r c s =
      (Except.ok (), { s with
        nextBlank := s.nextBlank + 1,
        graph := s.graph ++
          [(r, AIDA.confidence, Term.bnode s.nextBlank),
           (Term.bnode s.nextBlank, AIDA.confidenceValue, Term.litRat c),
           (Term.bnode s.nextBlank, AIDA.system, s.system_node)] }) := by
  simp [mark_single_assertion_confidence, ConvM.bind_apply, freshBNode_apply, gAdd_apply,
    ConvM.pure_apply, getS, List.append_assoc]

theorem register_justifications_loop_run (entity : Term) (doc_id : String)
    (string : Option String) (confidence : Option ℚ) (spans : List Span) : ∀ (s : ConvState),
    register_justifications_loop entity doc_id string confidence spans s =
      (Except.ok (), { s with
        nextBlank := (rj_delta s.system_node entity doc_id string confidence spans s.nextBlank).2,
        graph := s.graph ++
          (rj_delta s.system_node entity doc_id string confidence spans s.nextBlank).1 }) := by
  induction spans with
  | nil =>
    intro s
    simp [register_justifications_loop, rj_delta, ConvM.pure_apply]
  | cons justification rest ih =>
    intro s
    cases confidence with
    | none =>
      cases string with
      | none =>
        simp [register_justifications_loop, rj_delta, ConvM.bind_apply, freshBNode_apply,
          gAdd_apply, associate_with_system_apply, ConvM.pure_apply, ih, List.append_assoc]
      | some str =>
        by_cases hs : str = ""
        · subst hs
          simp [register_justifications_loop, rj_delta, ConvM.bind_apply, freshBNode_apply,
            gAdd_apply, associate_with_system_apply, ConvM.pure_apply, ih, List.append_assoc]
        · simp [register_justifications_loop, rj_delta, ConvM.bind_apply, freshBNode_apply,
            gAdd_apply, associate_with_system_apply, ConvM.pure_apply, hs, ih, List.append_assoc]
    | some c =>
      by_cases hc : c = 0
      · subst hc
        cases string with
        | none =>
          simp [register_justifications_loop, rj_delta, ConvM.bind_apply, freshBNode_apply,
            gAdd_apply, associate_with_system_apply, ConvM.pure_apply, ih, List.append_assoc]
        | some str =>
          by_cases hs : str = ""
          · subst hs
            simp [register_justifications_loop, rj_delta, ConvM.bind_apply, freshBNode_apply,
              gAdd_apply, associate_with_system_apply, ConvM.pure_apply, ih, List.append_assoc]
          · simp [register_justifications_loop, rj_delta, ConvM.bind_apply, freshBNode_apply,
              gAdd_apply, associate_with_system_apply, ConvM.pure_apply, hs, ih, List.append_assoc]
      · cases string with
        | none =>
          simp [register_justifications_loop, rj_delta, ConvM.bind_apply, freshBNode_apply,
            gAdd_apply, associate_with_system_apply, mark_single_assertion_confidence_apply,
            ConvM.pure_apply, hc, ih, List.append_assoc]
        | some str =>
          by_cases hs : str = ""
          · subst hs
            simp [register_justifications_loop, rj_delta, ConvM.bind_apply, freshBNode_apply,
              gAdd_apply, associate_with_system_apply, mark_single_assertion_confidence_apply,
              ConvM.pure_apply, hc, ih, List.append_assoc]
          · simp [register_justifications_loop, rj_delta, ConvM.bind_apply, freshBNode_apply,
              gAdd_apply, associate_with_system_apply, mark_single_assertion_confidence_apply,
              ConvM.pure_apply, hc, hs, ih, List.append_assoc]

theorem register_justifications_run (entity : Term) (provenance : Provenance)
    (string : Option String) (confidence : Option ℚ) (s : ConvState) :
    register_justifications entity provenance string confidence s =
      (Except.ok (), { s with
        nextBlank := (rj_delta s.system_node entity provenance.doc_id string confidence
          provenance.predicate_justifications s.nextBlank).2,
        graph := s.graph ++
          (rj_delta s.system_node entity provenance.doc_id string confidence
            provenance.predicate_justifications s.nextBlank).1 }) :=
  register_justifications_loop_run entity provenance.doc_id string confidence
    provenance.predicate_justifications s

theorem getS_apply (s : ConvState) : getS s = (Except.ok s, s) := rfl

theorem modifyS_apply (f : ConvState → ConvState) (s : ConvState) :
    modifyS f s = (Except.ok (), f s) := rfl

theorem throwE_apply (e : ConvError) (s : ConvState) :
    (throwE e : ConvM α) s = (Except.error e, s) := rfl

theorem lookupNode_append_left {l l2 : List (Node × Term)} {n : Node} {t : Term}
    (h : lookupNode l n = some t) : lookupNode (l ++ l2) n = some t := by
  induction l with
  | nil => exact nomatch h
  | cons p rest ih =>
    obtain ⟨k, v⟩ := p
    by_cases hn : n = k
    · simpa [lookupNode, hn] using h
    · simp only [lookupNode, hn, if_false, List.cons_append] at h ⊢
      exact ih h

theorem lookupNode_append_missing {l : List (Node × Term)} {n : Node} (u : Term)
    (h : lookupNode l n = none) : lookupNode (l ++ [(n, u)]) n = some u := by
  induction l with
  | nil => simp [lookupNode]
  | cons p rest ih =>
    obtain ⟨k, v⟩ := p
    by_cases hn : n = k
    · simp [lookupNode, hn] at h
    · simp only [lookupNode, hn, if_false] at h
      simp only [List.cons_append, lookupNode, hn, if_false]
      exact ih h

theorem nextNode_shape (k : GenKind) (s : ConvState) :
    ∃ t s2, nextNode k s = (Except.ok t, s2) ∧ s2.object_to_uri = s.object_to_uri ∧
      s2.graph = s.graph ∧ s2.system_node = s.system_node ∧ s2.lut = s.lut ∧
      s2.untranslatable_assertions = s.untranslatable_assertions ∧ s.nextBlank ≤ s2.nextBlank := by
  cases k with
  | entityGen =>
    cases hg : s.entity_node_generator with
    | blankGen =>
      refine ⟨Term.bnode s.nextBlank,
        { s with entity_node_generator := NodeGenerator.blankGen, nextBlank := s.nextBlank + 1 },
        ?_, rfl, rfl, rfl, rfl, rfl, Nat.le_succ _⟩
      simp [nextNode, hg, NodeGenerator.next_node]
    | sequentialGen base n0 =>
      refine ⟨Term.uri (base ++ "/" ++ toString n0),
        { s with entity_node_generator := NodeGenerator.sequentialGen base (n0 + 1) },
        ?_, rfl, rfl, rfl, rfl, rfl, le_refl _⟩
      simp [nextNode, hg, NodeGenerator.next_node]
  | eventGen =>
    cases hg : s.event_node_generator with
    | blankGen =>
      refine ⟨Term.bnode s.nextBlank,
        { s with event_node_generator := NodeGenerator.blankGen, nextBlank := s.nextBlank + 1 },
        ?_, rfl, rfl, rfl, rfl, rfl, Nat.le_succ _⟩
      simp [nextNode, hg, NodeGenerator.next_node]
    | sequentialGen base n0 =>
      refine ⟨Term.uri (base ++ "/" ++ toString n0),
        { s with event_node_generator := NodeGenerator.sequentialGen base (n0 + 1) },
        ?_, rfl, rfl, rfl, rfl, rfl, le_refl _⟩
      simp [nextNode, hg, NodeGenerator.next_node]
  | stringGen =>
    cases hg : s.string_node_generator with
    | blankGen =>
      refine ⟨Term.bnode s.nextBlank,
        { s with string_node_generator := NodeGenerator.blankGen, nextBlank := s.nextBlank + 1 },
        ?_, rfl, rfl, rfl, rfl, rfl, Nat.le_succ _⟩
      simp [nextNode, hg, NodeGenerator.next_node]
    | sequentialGen base n0 =>
      refine ⟨Term.uri (base ++ "/" ++ toString n0),
        { s with string_node_generator := NodeGenerator.sequentialGen base (n0 + 1) },
        ?_, rfl, rfl, rfl, rfl, rfl, le_refl _⟩
      simp [nextNode, hg, NodeGenerator.next_node]
  | assertionGen =>
    cases hg : s.assertion_node_generator with
    | blankGen =>
      refine ⟨Term.bnode s.nextBlank,
        { s with assertion_node_generator := NodeGenerator.blankGen, nextBlank := s.nextBlank + 1 },
        ?_, rfl, rfl, rfl, rfl, rfl, Nat.le_succ _⟩
      simp [nextNode, hg, NodeGenerator.next_node]
    | sequentialGen base n0 =>
      refine ⟨Term.uri (base ++ "/" ++ toString n0),
        { s with assertion_node_generator := NodeGenerator.sequentialGen base (n0 + 1) },
        ?_, rfl, rfl, rfl, rfl, rfl, le_refl _⟩
      simp [nextNode, hg, NodeGenerator.next_node]

theorem to_identifier_of_lookup (n : Node) (s : ConvState) (t : Term)
    (hgood : (n.isEntityNode || n.isEventNode || n.isStringNode) = true)
    (hl : lookupNode s.object_to_uri n = some t) :
    to_identifier n s = (Except.ok t, s) := by
  simp [to_identifier, check_arg, hgood, ConvM.bind_apply, getS_apply, hl, ConvM.pure_apply]

theorem to_identifier_shape (n : Node) (s : ConvState) :
    (∃ e, to_identifier n s = (Except.error e, s)) ∨
    (∃ t s2, to_identifier n s = (Except.ok t, s2) ∧
      (∃ tail, s2.object_to_uri = s.object_to_uri ++ tail) ∧
      s2.graph = s.graph ∧ s2.system_node = s.system_node ∧ s2.lut = s.lut ∧
      s2.untranslatable_assertions = s.untranslatable_assertions ∧ s.nextBlank ≤ s2.nextBlank ∧
      lookupNode s2.object_to_uri n = some t ∧
      to_identifier n s2 = (Except.ok t, s2)) := by
  cases n with
  | other id =>
    exact Or.inl ⟨ConvError.checkArg "node must be an EntityNode, EventNode or StringNode", rfl⟩
  | entity id =>
    right
    cases hl : lookupNode s.object_to_uri (Node.entity id) with
    | some u =>
      exact ⟨u, s, to_identifier_of_lookup _ _ _ rfl hl, ⟨[], by simp⟩, rfl, rfl, rfl, rfl,
        le_refl _, hl, to_identifier_of_lookup _ _ _ rfl hl⟩
    | none =>
      obtain ⟨t, s2, hnn, ho, hgr, hsys, hlut, hut, hnb⟩ := nextNode_shape .entityGen s
      have hrun : to_identifier (Node.entity id) s =
          (Except.ok t, { s2 with object_to_uri := s2.object_to_uri ++ [(Node.entity id, t)] }) := by
        simp [to_identifier, check_arg, ConvM.bind_apply, getS_apply, hl, hnn, modifyS_apply,
          ConvM.pure_apply, Node.isEntityNode]
      have hl2 : lookupNode (s2.object_to_uri ++ [(Node.entity id, t)]) (Node.entity id) = some t := by
        apply lookupNode_append_missing
        rw [ho]
        exact hl
      exact ⟨t, _, hrun, ⟨[(Node.entity id, t)], by rw [ho]⟩, hgr, hsys, hlut, hut, hnb, hl2,
        to_identifier_of_lookup _ _ _ rfl hl2⟩
  | event id =>
    right
    cases hl : lookupNode s.object_to_uri (Node.event id) with
    | some u =>
      exact ⟨u, s, to_identifier_of_lookup _ _ _ rfl hl, ⟨[], by simp⟩, rfl, rfl, rfl, rfl,
        le_refl _, hl, to_identifier_of_lookup _ _ _ rfl hl⟩
    | none =>
      obtain ⟨t, s2, hnn, ho, hgr, hsys, hlut, hut, hnb⟩ := nextNode_shape .eventGen s
      have hrun : to_identifier (Node.event id) s =
          (Except.ok t, { s2 with object_to_uri := s2.object_to_uri ++ [(Node.event id, t)] }) := by
        simp [to_identifier, check_arg, ConvM.bind_apply, getS_apply, hl, hnn, modifyS_apply,
          ConvM.pure_apply, Node.isEventNode]
      have hl2 : lookupNode (s2.object_to_uri ++ [(Node.event id, t)]) (Node.event id) = some t := by
        apply lookupNode_append_missing
        rw [ho]
        exact hl
      exact ⟨t, _, hrun, ⟨[(Node.event id, t)], by rw [ho]⟩, hgr, hsys, hlut, hut, hnb, hl2,
        to_identifier_of_lookup _ _ _ rfl hl2⟩
  | string id =>
    right
    cases hl : lookupNode s.object_to_uri (Node.string id) with
    | some u =>
      exact ⟨u, s, to_identifier_of_lookup _ _ _ rfl hl, ⟨[], by simp⟩, rfl, rfl, rfl, rfl,
        le_refl _, hl, to_identifier_of_lookup _ _ _ rfl hl⟩
    | none =>
      obtain ⟨t, s2, hnn, ho, hgr, hsys, hlut, hut, hnb⟩ := nextNode_shape .stringGen s
      have hrun : to_identifier (Node.string id) s =
          (Except.ok t, { s2 with object_to_uri := s2.object_to_uri ++ [(Node.string id, t)] }) := by
        simp [to_identifier, check_arg, ConvM.bind_apply, getS_apply, hl, hnn, modifyS_apply,
          ConvM.pure_apply, Node.isStringNode]
      have hl2 : lookupNode (s2.object_to_uri ++ [(Node.string id, t)]) (Node.string id) = some t := by
        apply lookupNode_append_missing
        rw [ho]
        exact hl
      exact ⟨t, _, hrun, ⟨[(Node.string id, t)], by rw [ho]⟩, hgr, hsys, hlut, hut, hnb, hl2,
        to_identifier_of_lookup _ _ _ rfl hl2⟩

theorem rj_delta_counter_le (sysnode entity : Term) (doc_id : String) (string : Option String)
    (confidence : Option ℚ) : ∀ (spans : List Span) (nb : Nat),
    nb ≤ (rj_delta sysnode entity doc_id string confidence spans nb).2 := by
  intro spans
  induction spans with
  | nil => intro nb; simp [rj_delta]
  | cons j rest ih =>
    intro nb
    cases confidence with
    | none =>
      simp only [rj_delta]
      exact le_trans (Nat.le_succ _) (ih (nb + 1))
    | some c =>
      by_cases hc : c = 0
      · subst hc
        simp only [rj_delta, if_pos (Eq.refl (0 : ℚ))]
        exact le_trans (Nat.le_succ _) (ih (nb + 1))
      · simp only [rj_delta, if_neg hc]
        exact le_trans (by omega) (ih (nb + 2))

theorem rj_delta_zero_eq_none (sysnode entity : Term) (doc_id : String) (string : Option String) :
    ∀ (spans : List Span) (nb : Nat),
    rj_delta sysnode entity doc_id string (some 0) spans nb =
      rj_delta sysnode entity doc_id string none spans nb := by
  intro spans
  induction spans with
  | nil => intro nb; simp [rj_delta]
  | cons j rest ih =>
    intro nb
    simp [rj_delta, ih]

theorem rj_delta_none_none_mem (sysnode entity : Term) (doc_id : String) :
    ∀ (spans : List Span) (nb : Nat) (trp : Triple),
    trp ∈ (rj_delta sysnode entity doc_id none none spans nb).1 →
    ∃ k, nb ≤ k ∧
      (trp = (Term.bnode k, AIDA.system, sysnode) ∨
       trp = (Term.bnode k, RDF.type, AIDA.TextProvenance) ∨
       trp = (Term.bnode k, AIDA.source, Term.litStr doc_id) ∨
       (∃ v, trp = (Term.bnode k, AIDA.startOffset, Term.litInt v)) ∨
       (∃ v, trp = (Term.bnode k, AIDA.endOffsetInclusive, Term.litInt v)) ∨
       trp = (entity, AIDA.justifiedBy, Term.bnode k)) := by
  intro spans
  induction spans with
  | nil => intro nb trp h; simp [rj_delta] at h
  | cons j rest ih =>
    intro nb trp h
    simp only [rj_delta, List.nil_append, List.cons_append, List.mem_cons, List.mem_append] at h
    rcases h with h | h | h | h | h | h | h
    · exact ⟨nb, le_refl _, Or.inl h⟩
    · exact ⟨nb, le_refl _, Or.inr (Or.inl h)⟩
    · exact ⟨nb, le_refl _, Or.inr (Or.inr (Or.inl h))⟩
    · exact ⟨nb, le_refl _, Or.inr (Or.inr (Or.inr (Or.inl ⟨_, h⟩)))⟩
    · exact ⟨nb, le_refl _, Or.inr (Or.inr (Or.inr (Or.inr (Or.inl ⟨_, h⟩))))⟩
    · exact ⟨nb, le_refl _, Or.inr (Or.inr (Or.inr (Or.inr (Or.inr h))))⟩
    · obtain ⟨k, hk, hsh⟩ := ih (nb + 1) trp h
      exact ⟨k, by omega, hsh⟩

theorem rj_delta_mem_span (sysnode entity : Term) (doc_id : String) (string : Option String)
    (confidence : Option ℚ) :
    ∀ (spans : List Span) (nb : Nat) (j : Span), j ∈ spans →
    ∃ k, (Term.bnode k, RDF.type, AIDA.TextProvenance) ∈
        (rj_delta sysnode entity doc_id string confidence spans nb).1 ∧
      (Term.bnode k, AIDA.source, Term.litStr doc_id) ∈
        (rj_delta sysnode entity doc_id string confidence spans nb).1 ∧
      (Term.bnode k, AIDA.startOffset, Term.litInt j.start) ∈
        (rj_delta sysnode entity doc_id string confidence spans nb).1 ∧
      (Term.bnode k, AIDA.endOffsetInclusive, Term.litInt (j.endOff + 1)) ∈
        (rj_delta sysnode entity doc_id string confidence spans nb).1 := by
  intro spans
  induction spans with
  | nil => intro nb j hj; simp at hj
  | cons j0 rest ih =>
    intro nb j hj
    rcases List.mem_cons.mp hj with rfl | hj
    · exact ⟨nb, by simp [rj_delta], by simp [rj_delta], by simp [rj_delta], by simp [rj_delta]⟩
    · cases confidence with
      | none =>
        obtain ⟨k, h1, h2, h3, h4⟩ := ih (nb + 1) j hj
        refine ⟨k, ?_, ?_, ?_, ?_⟩ <;>
          · simp only [rj_delta, List.mem_append, List.mem_cons]
            tauto
      | some c =>
        by_cases hc : c = 0
        · subst hc
          obtain ⟨k, h1, h2, h3, h4⟩ := ih (nb + 1) j hj
          refine ⟨k, ?_, ?_, ?_, ?_⟩ <;>
            · simp only [rj_delta, if_pos (Eq.refl (0 : ℚ)), List.mem_append, List.mem_cons]
              tauto
        · obtain ⟨k, h1, h2, h3, h4⟩ := ih (nb + 2) j hj
          refine ⟨k, ?_, ?_, ?_, ?_⟩ <;>
            · simp only [rj_delta, if_neg hc, List.mem_append, List.mem_cons]
              tauto

theorem rj_delta_confidence_count_none (sysnode entity : Term) (doc_id : String)
    (string : Option String) :
    ∀ (spans : List Span) (nb : Nat),
    ((rj_delta sysnode entity doc_id string none spans nb).1).countP isConfidenceTriple = 0 := by
  intro spans
  induction spans with
  | nil => intro nb; simp [rj_delta]
  | cons j rest ih =>
    intro nb
    cases string with
    | none =>
      simp [rj_delta, List.countP_append, List.countP_cons, isConfidenceTriple,
        AIDA.system, AIDA.confidence, RDF.type, AIDA.TextProvenance, AIDA.source,
        AIDA.startOffset, AIDA.endOffsetInclusive, AIDA.justifiedBy, ih]
    | some str =>
      by_cases hs : str = ""
      · subst hs
        simp [rj_delta, List.countP_append, List.countP_cons, isConfidenceTriple,
          AIDA.system, AIDA.confidence, RDF.type, AIDA.TextProvenance, AIDA.source,
          AIDA.startOffset, AIDA.endOffsetInclusive, AIDA.justifiedBy, SKOS.prefLabel, ih]
      · simp [rj_delta, hs, List.countP_append, List.countP_cons, isConfidenceTriple,
          AIDA.system, AIDA.confidence, RDF.type, AIDA.TextProvenance, AIDA.source,
          AIDA.startOffset, AIDA.endOffsetInclusive, AIDA.justifiedBy, SKOS.prefLabel, ih]

theorem rj_delta_confidence_count_pos (sysnode entity : Term) (doc_id : String)
    (string : Option String) (c : ℚ) (hc : c ≠ 0) :
    ∀ (spans : List Span) (nb : Nat),
    ((rj_delta sysnode entity doc_id string (some c) spans nb).1).countP isConfidenceTriple =
      spans.length := by
  intro spans
  induction spans with
  | nil => intro nb; simp [rj_delta]
  | cons j rest ih =>
    intro nb
    cases string with
    | none =>
      simp [rj_delta, hc, List.countP_append, List.countP_cons, isConfidenceTriple,
        AIDA.system, AIDA.confidence, AIDA.confidenceValue, RDF.type, AIDA.TextProvenance,
        AIDA.source, AIDA.startOffset, AIDA.endOffsetInclusive, AIDA.justifiedBy, ih]
    | some str =>
      by_cases hs : str = ""
      · subst hs
        simp [rj_delta, hc, List.countP_append, List.countP_cons, isConfidenceTriple,
          AIDA.system, AIDA.confidence, AIDA.confidenceValue, RDF.type, AIDA.TextProvenance,
          AIDA.source, AIDA.startOffset, AIDA.endOffsetInclusive, AIDA.justifiedBy,
          SKOS.prefLabel, ih]
      · simp [rj_delta, hc, hs, List.countP_append, List.countP_cons, isConfidenceTriple,
          AIDA.system, AIDA.confidence, AIDA.confidenceValue, RDF.type, AIDA.TextProvenance,
          AIDA.source, AIDA.startOffset, AIDA.endOffsetInclusive, AIDA.justifiedBy,
          SKOS.prefLabel, ih]

theorem translate_relation_run (ra : RelationAssertion) (c : ℚ) (s : ConvState)
    (hE : ra.sbj.isEntityNode = true) :
    (∃ e s2, translate_relation ra (some c) s = (Except.error e, s2) ∧ s2.graph = s.graph ∧
      s2.system_node = s.system_node) ∨
    (∃ (sbj_t obj_t ra_t relation_type : Term) (nb : Nat) (s2 : ConvState),
      translate_relation ra (some c) s = (Except.ok true, s2) ∧
      s.nextBlank ≤ nb ∧ s2.system_node = s.system_node ∧
      s2.graph = s.graph ++
        [(ra_t, RDF.type, relation_type), (ra_t, RDF.subject, sbj_t), (ra_t, RDF.object, obj_t),
         (ra_t, AIDA.confidence, Term.bnode nb),
         (Term.bnode nb, AIDA.confidenceValue, Term.litRat c)] ++
        (rj_delta s.system_node ra_t ra.justifications.doc_id none none
          ra.justifications.predicate_justifications (nb + 1)).1) := by
  rcases to_identifier_shape ra.sbj s with ⟨e, he⟩ |
    ⟨sbj_t, sA, htiA, _, hgA, hsysA, hlutA, _, hnbA, _, _⟩
  · left
    refine ⟨e, s, ?_, rfl, rfl⟩
    simp [translate_relation, check_not_none, ConvM.bind_apply, ConvM.pure_apply, hE, he]
  · rcases to_identifier_shape ra.obj sA with ⟨e, he⟩ |
      ⟨obj_t, sB, htiB, _, hgB, hsysB, hlutB, _, hnbB, _, _⟩
    · left
      refine ⟨e, sA, ?_, hgA, hsysA⟩
      simp [translate_relation, check_not_none, ConvM.bind_apply, ConvM.pure_apply, hE, htiA, he]
    · obtain ⟨ra_t, sC, hnn, hoC, hgC, hsysC, hlutC, hutC, hnbC⟩ := nextNode_shape .assertionGen sB
      cases hot : to_ontology_type sC.lut ra.relation with
      | error e =>
        left
        refine ⟨e, sC, ?_, by rw [hgC, hgB, hgA], by rw [hsysC, hsysB, hsysA]⟩
        simp [translate_relation, check_not_none, ConvM.bind_apply, ConvM.pure_apply, hE,
          htiA, htiB, hnn, getS_apply, hot, liftE, throwE_apply]
      | ok relation_type =>
        have hrun : translate_relation ra (some c) s =
            (Except.ok true,
              { sC with
                nextBlank := (rj_delta sC.system_node ra_t ra.justifications.doc_id none none
                  ra.justifications.predicate_justifications (sC.nextBlank + 1)).2,
                graph := sC.graph ++
                  [(ra_t, RDF.type, relation_type), (ra_t, RDF.subject, sbj_t),
                   (ra_t, RDF.object, obj_t), (ra_t, AIDA.confidence, Term.bnode sC.nextBlank),
                   (Term.bnode sC.nextBlank, AIDA.confidenceValue, Term.litRat c)] ++
                  (rj_delta sC.system_node ra_t ra.justifications.doc_id none none
                    ra.justifications.predicate_justifications (sC.nextBlank + 1)).1 }) := by
          simp [translate_relation, check_not_none, ConvM.bind_apply, hE, htiA, htiB, hnn,
            getS_apply, hot, liftE, ConvM.pure_apply, gAdd_apply, freshBNode_apply,
            register_justifications_run, List.append_assoc]
        right
        refine ⟨sbj_t, obj_t, ra_t, relation_type, sC.nextBlank, _, hrun, ?_, ?_, ?_⟩
        · exact le_trans hnbA (le_trans hnbB hnbC)
        · simp [hsysC, hsysB, hsysA]
        · simp [hgC, hgB, hgA, hsysC, hsysB, hsysA, List.append_assoc]

theorem translate_link_no_system (la : LinkAssertion) (confidence : Option ℚ) (s : ConvState)
    (r : Except ConvError Bool) (s2 : ConvState)
    (hrun : translate_link la confidence s = (r, s2)) :
    ∀ x o, (x, AIDA.system, o) ∈ s2.graph → (x, AIDA.system, o) ∈ s.graph := by
  rcases to_identifier_shape la.sbj s with ⟨e, he⟩ |
    ⟨entity_uri, sA, hti, _, hgA, hsysA, hlutA, _, hnbA, _, _⟩
  · have hx : translate_link la confidence s = (Except.error e, s) := by
      simp [translate_link, ConvM.bind_apply, ConvM.pure_apply, he]
    rw [hx, Prod.mk.injEq] at hrun
    obtain ⟨-, rfl⟩ := hrun
    exact fun x o h => h
  · cases confidence with
    | none =>
      have hx : translate_link la none s =
          (Except.ok true,
            { sA with
              nextBlank := sA.nextBlank + 1,
              graph := sA.graph ++
                [(entity_uri, AIDA.link, Term.bnode sA.nextBlank),
                 (Term.bnode sA.nextBlank, AIDA.linkTarget, Term.litStr la.global_id)] }) := by
        simp [translate_link, ConvM.bind_apply, ConvM.pure_apply, hti, freshBNode_apply,
          gAdd_apply, List.append_assoc]
      rw [hx, Prod.mk.injEq] at hrun
      obtain ⟨-, rfl⟩ := hrun
      intro x o h
      simp only [List.mem_append, List.mem_cons, List.not_mem_nil, or_false] at h
      rcases h with h | h | h
      · rw [hgA] at h
        exact h
      · simp [Prod.mk.injEq, AIDA.system, AIDA.link] at h
      · simp [Prod.mk.injEq, AIDA.system, AIDA.linkTarget] at h
    | some c =>
      have hx : translate_link la (some c) s =
          (Except.ok true,
            { sA with
              nextBlank := sA.nextBlank + 1 + 1,
              graph := sA.graph ++
                [(entity_uri, AIDA.link, Term.bnode sA.nextBlank),
                 (Term.bnode sA.nextBlank, AIDA.linkTarget, Term.litStr la.global_id),
                 (Term.bnode sA.nextBlank, AIDA.confidence, Term.bnode (sA.nextBlank + 1)),
                 (Term.bnode (sA.nextBlank + 1), AIDA.confidenceValue, Term.litRat c)] }) := by
        simp [translate_link, ConvM.bind_apply, ConvM.pure_apply, hti, freshBNode_apply,
          gAdd_apply, List.append_assoc]
      rw [hx, Prod.mk.injEq] at hrun
      obtain ⟨-, rfl⟩ := hrun
      intro x o h
      simp only [List.mem_append, List.mem_cons, List.not_mem_nil, or_false] at h
      rcases h with h | h | h | h | h
      · rw [hgA] at h
        exact h
      · simp [Prod.mk.injEq, AIDA.system, AIDA.link] at h
      · simp [Prod.mk.injEq, AIDA.system, AIDA.linkTarget] at h
      · simp [Prod.mk.injEq, AIDA.system, AIDA.confidence] at h
      · simp [Prod.mk.injEq, AIDA.system, AIDA.confidenceValue] at h

theorem translate_relation_confidence_untagged (ra : RelationAssertion) (c : ℚ) (s : ConvState)
    (r : Except ConvError Bool) (s2 : ConvState)
    (hrun : translate_relation ra (some c) s = (r, s2)) (x b : Term)
    (hin : (x, AIDA.confidence, b) ∈ s2.graph) (hnew : (x, AIDA.confidence, b) ∉ s.graph)
    (o : Term) (hsys : (b, AIDA.system, o) ∈ s2.graph) : (b, AIDA.system, o) ∈ s.graph := by
  by_cases hE : ra.sbj.isEntityNode
  · rcases translate_relation_run ra c s hE with ⟨e, s2', herr, hg, -⟩ |
      ⟨sbj_t, obj_t, ra_t, relation_type, nb, s2', hok, hnb, hsys2, hg⟩
    · rw [herr, Prod.mk.injEq] at hrun
      obtain ⟨-, rfl⟩ := hrun
      rw [hg] at hsys
      exact hsys
    · rw [hok, Prod.mk.injEq] at hrun
      obtain ⟨-, rfl⟩ := hrun
      rw [hg] at hin hsys
      simp only [List.mem_append, List.mem_cons, List.not_mem_nil, or_false] at hin
      have hb : b = Term.bnode nb := by
        rcases hin with (hin | hin | hin | hin | hin | hin) | hin
        · exact absurd hin hnew
        · simp [Prod.mk.injEq, AIDA.confidence, RDF.type] at hin
        · simp [Prod.mk.injEq, AIDA.confidence, RDF.subject] at hin
        · simp [Prod.mk.injEq, AIDA.confidence, RDF.object] at hin
        · have hx2 : x = ra_t ∧ b = Term.bnode nb := by simpa [Prod.mk.injEq] using hin
          exact hx2.2
        · simp [Prod.mk.injEq, AIDA.confidence, AIDA.confidenceValue] at hin
        · obtain ⟨k, -, hsh⟩ := rj_delta_none_none_mem _ _ _ _ _ _ hin
          rcases hsh with h | h | h | ⟨v, h⟩ | ⟨v, h⟩ | h <;>
            simp [Prod.mk.injEq, AIDA.confidence, AIDA.system, RDF.type, AIDA.TextProvenance,
              AIDA.source, AIDA.startOffset, AIDA.endOffsetInclusive, AIDA.justifiedBy] at h
      subst hb
      simp only [List.mem_append, List.mem_cons, List.not_mem_nil, or_false] at hsys
      rcases hsys with (hsys | hsys | hsys | hsys | hsys | hsys) | hsys
      · exact hsys
      · simp [Prod.mk.injEq, AIDA.system, RDF.type] at hsys
      · simp [Prod.mk.injEq, AIDA.system, RDF.subject] at hsys
      · simp [Prod.mk.injEq, AIDA.system, RDF.object] at hsys
      · simp [Prod.mk.injEq, AIDA.system, AIDA.confidence] at hsys
      · simp [Prod.mk.injEq, AIDA.system, AIDA.confidenceValue] at hsys
      · obtain ⟨k, hk, hsh⟩ := rj_delta_none_none_mem _ _ _ _ _ _ hsys
        rcases hsh with h | h | h | ⟨v, h⟩ | ⟨v, h⟩ | h
        · obtain ⟨hbk, -⟩ : Term.bnode nb = Term.bnode k ∧ (AIDA.system, o) = (AIDA.system, _) := by
            simpa [Prod.mk.injEq] using h
          obtain rfl : nb = k := by simpa using hbk
          omega
        · simp [Prod.mk.injEq, AIDA.system, RDF.type] at h
        · simp [Prod.mk.injEq, AIDA.system, AIDA.source] at h
        · simp [Prod.mk.injEq, AIDA.system, AIDA.startOffset] at h
        · simp [Prod.mk.injEq, AIDA.system, AIDA.endOffsetInclusive] at h
        · simp [Prod.mk.injEq, AIDA.system, AIDA.justifiedBy] at h
  · have hx : translate_relation ra (some c) s = (Except.ok true, s) := by
      have hEf : ra.sbj.isEntityNode = false := by simpa using hE
      simp [translate_relation, check_not_none, ConvM.bind_apply, ConvM.pure_apply, hEf]
    rw [hx, Prod.mk.injEq] at hrun
    obtain ⟨-, rfl⟩ := hrun
    exact hsys

theorem translate_event_argument_run (ea : EventMentionAssertion) (c : ℚ) (s : ConvState)
    (hE : ea.sbj.isEventNode = true) :
    (∃ e s2, translate_event_argument ea (some c) s = (Except.error e, s2) ∧ s2.graph = s.graph ∧
      s2.system_node = s.system_node) ∨
    (∃ (sbj_t obj_t ra_t role_type : Term) (nb : Nat) (s2 : ConvState),
      translate_event_argument ea (some c) s = (Except.ok true, s2) ∧
      s.nextBlank ≤ nb ∧ s2.system_node = s.system_node ∧
      s2.graph = s.graph ++
        [(ra_t, RDF.type, role_type), (ra_t, RDF.subject, sbj_t), (ra_t, RDF.object, obj_t),
         (ra_t, AIDA.confidence, Term.bnode nb),
         (Term.bnode nb, AIDA.confidenceValue, Term.litRat c)] ++
        (rj_delta s.system_node ra_t ea.justifications.doc_id none none
          ea.justifications.predicate_justifications (nb + 1)).1) := by
  rcases to_identifier_shape ea.sbj s with ⟨e, he⟩ |
    ⟨sbj_t, sA, htiA, _, hgA, hsysA, hlutA, _, hnbA, _, _⟩
  · left
    refine ⟨e, s, ?_, rfl, rfl⟩
    simp [translate_event_argument, check_not_none, ConvM.bind_apply, ConvM.pure_apply, hE, he]
  · rcases to_identifier_shape ea.argument sA with ⟨e, he⟩ |
      ⟨obj_t, sB, htiB, _, hgB, hsysB, hlutB, _, hnbB, _, _⟩
    · left
      refine ⟨e, sA, ?_, hgA, hsysA⟩
      simp [translate_event_argument, check_not_none, ConvM.bind_apply, ConvM.pure_apply, hE,
        htiA, he]
    · obtain ⟨ra_t, sC, hnn, hoC, hgC, hsysC, hlutC, hutC, hnbC⟩ := nextNode_shape .assertionGen sB
      cases hot : to_ontology_type sC.lut ea.argument_role with
      | error e =>
        left
        refine ⟨e, sC, ?_, by rw [hgC, hgB, hgA], by rw [hsysC, hsysB, hsysA]⟩
        simp [translate_event_argument, check_not_none, ConvM.bind_apply, ConvM.pure_apply, hE,
          htiA, htiB, hnn, getS_apply, hot, liftE, throwE_apply]
      | ok role_type =>
        have hrun : translate_event_argument ea (some c) s =
            (Except.ok true,
              { sC with
                nextBlank := (rj_delta sC.system_node ra_t ea.justifications.doc_id none none
                  ea.justifications.predicate_justifications (sC.nextBlank + 1)).2,
                graph := sC.graph ++
                  [(ra_t, RDF.type, role_type), (ra_t, RDF.subject, sbj_t),
                   (ra_t, RDF.object, obj_t), (ra_t, AIDA.confidence, Term.bnode sC.nextBlank),
                   (Term.bnode sC.nextBlank, AIDA.confidenceValue, Term.litRat c)] ++
                  (rj_delta sC.system_node ra_t ea.justifications.doc_id none none
                    ea.justifications.predicate_justifications (sC.nextBlank + 1)).1 }) := by
          simp [translate_event_argument, check_not_none, ConvM.bind_apply, hE, htiA, htiB, hnn,
            getS_apply, hot, liftE, ConvM.pure_apply, gAdd_apply, freshBNode_apply,
            register_justifications_run, List.append_assoc]
        right
        refine ⟨sbj_t, obj_t, ra_t, role_type, sC.nextBlank, _, hrun, ?_, ?_, ?_⟩
        · exact le_trans hnbA (le_trans hnbB hnbC)
        · simp [hsysC, hsysB, hsysA]
        · simp [hgC, hgB, hgA, hsysC, hsysB, hsysA, List.append_assoc]

theorem translate_event_argument_confidence_untagged (ea : EventMentionAssertion) (c : ℚ)
    (s : ConvState) (r : Except ConvError Bool) (s2 : ConvState)
    (hrun : translate_event_argument ea (some c) s = (r, s2)) (x b : Term)
    (hin : (x, AIDA.confidence, b) ∈ s2.graph) (hnew : (x, AIDA.confidence, b) ∉ s.graph)
    (o : Term) (hsys : (b, AIDA.system, o) ∈ s2.graph) : (b, AIDA.system, o) ∈ s.graph := by
  by_cases hE : ea.sbj.isEventNode
  · rcases translate_event_argument_run ea c s hE with ⟨e, s2', herr, hg, -⟩ |
      ⟨sbj_t, obj_t, ra_t, role_type, nb, s2', hok, hnb, hsys2, hg⟩
    · rw [herr, Prod.mk.injEq] at hrun
      obtain ⟨-, rfl⟩ := hrun
      rw [hg] at hsys
      exact hsys
    · rw [hok, Prod.mk.injEq] at hrun
      obtain ⟨-, rfl⟩ := hrun
      rw [hg] at hin hsys
      simp only [List.mem_append, List.mem_cons, List.not_mem_nil, or_false] at hin
      have hb : b = Term.bnode nb := by
        rcases hin with (hin | hin | hin | hin | hin | hin) | hin
        · exact absurd hin hnew
        · simp [Prod.mk.injEq, AIDA.confidence, RDF.type] at hin
        · simp [Prod.mk.injEq, AIDA.confidence, RDF.subject] at hin
        · simp [Prod.mk.injEq, AIDA.confidence, RDF.object] at hin
        · have hx2 : x = ra_t ∧ b = Term.bnode nb := by simpa [Prod.mk.injEq] using hin
          exact hx2.2
        · simp [Prod.mk.injEq, AIDA.confidence, AIDA.confidenceValue] at hin
        · obtain ⟨k, -, hsh⟩ := rj_delta_none_none_mem _ _ _ _ _ _ hin
          rcases hsh with h | h | h | ⟨v, h⟩ | ⟨v, h⟩ | h <;>
            simp [Prod.mk.injEq, AIDA.confidence, AIDA.system, RDF.type, AIDA.TextProvenance,
              AIDA.source, AIDA.startOffset, AIDA.endOffsetInclusive, AIDA.justifiedBy] at h
      subst hb
      simp only [List.mem_append, List.mem_cons, List.not_mem_nil, or_false] at hsys
      rcases hsys with (hsys | hsys | hsys | hsys | hsys | hsys) | hsys
      · exact hsys
      · simp [Prod.mk.injEq, AIDA.system, RDF.type] at hsys
      · simp [Prod.mk.injEq, AIDA.system, RDF.subject] at hsys
      · simp [Prod.mk.injEq, AIDA.system, RDF.object] at hsys
      · simp [Prod.mk.injEq, AIDA.system, AIDA.confidence] at hsys
      · simp [Prod.mk.injEq, AIDA.system, AIDA.confidenceValue] at hsys
      · obtain ⟨k, hk, hsh⟩ := rj_delta_none_none_mem _ _ _ _ _ _ hsys
        rcases hsh with h | h | h | ⟨v, h⟩ | ⟨v, h⟩ | h
        · obtain ⟨hbk, -⟩ : Term.bnode nb = Term.bnode k ∧ (AIDA.system, o) = (AIDA.system, _) := by
            simpa [Prod.mk.injEq] using h
          obtain rfl : nb = k := by simpa using hbk
          omega
        · simp [Prod.mk.injEq, AIDA.system, RDF.type] at h
        · simp [Prod.mk.injEq, AIDA.system, AIDA.source] at h
        · simp [Prod.mk.injEq, AIDA.system, AIDA.startOffset] at h
        · simp [Prod.mk.injEq, AIDA.system, AIDA.endOffsetInclusive] at h
        · simp [Prod.mk.injEq, AIDA.system, AIDA.justifiedBy] at h
  · have hx : translate_event_argument ea (some c) s = (Except.ok true, s) := by
      have hEf : ea.sbj.isEventNode = false := by simpa using hE
      simp [translate_event_argument, check_not_none, ConvM.bind_apply, ConvM.pure_apply, hEf]
    rw [hx, Prod.mk.injEq] at hrun
    obtain ⟨-, rfl⟩ := hrun
    exact hsys

theorem cacheAppends_of_preserve {α : Type} {m : ConvM α}
    (h : ∀ s, ((m s).2).object_to_uri = s.object_to_uri) : cacheAppends m := by
  intro s r s2 hm
  refine ⟨[], ?_⟩
  have h2 := h s
  rw [hm] at h2
  simpa using h2

theorem cacheAppends_bind {α β : Type} {m : ConvM α} {f : α → ConvM β}
    (hm : cacheAppends m) (hf : ∀ a, cacheAppends (f a)) : cacheAppends (m >>= f) := by
  intro s r s2 h
  rw [ConvM.bind_apply] at h
  rcases hme : m s with ⟨r1, s1⟩
  rw [hme] at h
  cases r1 with
  | ok a =>
    obtain ⟨t1, ht1⟩ := hm s (Except.ok a) s1 hme
    obtain ⟨t2, ht2⟩ := hf a s1 r s2 h
    exact ⟨t1 ++ t2, by rw [ht2, ht1, List.append_assoc]⟩
  | error e =>
    obtain ⟨t1, ht1⟩ := hm s (Except.error e) s1 hme
    injection h with h1 h2
    exact ⟨t1, h2 ▸ ht1⟩

theorem cacheAppends_pure {α : Type} (a : α) : cacheAppends (ConvM.pure a) :=
  cacheAppends_of_preserve fun _ => rfl

theorem cacheAppends_pure' {α : Type} (a : α) : cacheAppends (pure a : ConvM α) :=
  cacheAppends_of_preserve fun _ => rfl

theorem cacheAppends_throwE {α : Type} (e : ConvError) : cacheAppends (throwE e : ConvM α) :=
  cacheAppends_of_preserve fun _ => rfl

theorem cacheAppends_getS : cacheAppends getS :=
  cacheAppends_of_preserve fun _ => rfl

theorem cacheAppends_gAdd (t : Triple) : cacheAppends (gAdd t) :=
  cacheAppends_of_preserve fun _ => rfl

theorem cacheAppends_freshBNode : cacheAppends freshBNode :=
  cacheAppends_of_preserve fun _ => rfl

theorem cacheAppends_nextNode (k : GenKind) : cacheAppends (nextNode k) :=
  cacheAppends_of_preserve fun s => by cases k <;> rfl

theorem cacheAppends_check_arg (b : Bool) (msg : String) : cacheAppends (check_arg b msg) :=
  cacheAppends_of_preserve fun s => by cases b <;> rfl

theorem cacheAppends_check_not_none {α : Type} (x : Option α) (msg : String) :
    cacheAppends (check_not_none x msg) :=
  cacheAppends_of_preserve fun s => by cases x <;> rfl

theorem cacheAppends_liftE {α : Type} (x : Except ConvError α) : cacheAppends (liftE x) :=
  cacheAppends_of_preserve fun s => by cases x <;> rfl

theorem cacheAppends_associate_with_system (t : Term) : cacheAppends (associate_with_system t) :=
  cacheAppends_of_preserve fun _ => rfl

theorem cacheAppends_mark (t : Term) (c : ℚ) :
    cacheAppends (mark_single_assertion_confidence t c) :=
  cacheAppends_of_preserve fun _ => rfl

theorem cacheAppends_register_justifications (entity : Term) (p : Provenance)
    (string : Option String) (confidence : Option ℚ) :
    cacheAppends (register_justifications entity p string confidence) :=
  cacheAppends_of_preserve fun s => by rw [register_justifications_run]

theorem cacheAppends_to_identifier (n : Node) : cacheAppends (to_identifier n) := by
  intro s r s2 h
  rcases to_identifier_shape n s with ⟨e, he⟩ |
    ⟨t, s2', hrun, ⟨tail, htail⟩, -, -, -, -, -, -, -⟩
  · rw [he, Prod.mk.injEq] at h
    obtain ⟨-, rfl⟩ := h
    exact ⟨[], by simp⟩
  · rw [hrun, Prod.mk.injEq] at h
    obtain ⟨-, rfl⟩ := h
    exact ⟨tail, htail⟩

theorem cacheAppends_bump (k : AssertionKind) :
    cacheAppends (modifyS fun s =>
      { s with untranslatable_assertions := bumpCount s.untranslatable_assertions k }) :=
  cacheAppends_of_preserve fun _ => rfl

theorem cacheAppends_translate_type (a : TypeAssertion) (conf : Option ℚ) :
    cacheAppends (translate_type a conf) := by
  unfold translate_type
  apply cacheAppends_bind (cacheAppends_check_arg _ _)
  intro u
  by_cases hc : a.sbj.isEntityNode
  · simp only [hc, if_true]
    apply cacheAppends_bind (cacheAppends_nextNode _)
    intro rdf_assertion
    apply cacheAppends_bind (cacheAppends_to_identifier _)
    intro entity
    apply cacheAppends_bind cacheAppends_getS
    intro st
    apply cacheAppends_bind (cacheAppends_liftE _)
    intro ot
    apply cacheAppends_bind (cacheAppends_gAdd _)
    intro u2
    apply cacheAppends_bind (cacheAppends_gAdd _)
    intro u3
    apply cacheAppends_bind (cacheAppends_gAdd _)
    intro u4
    apply cacheAppends_bind (cacheAppends_gAdd _)
    intro u5
    apply cacheAppends_bind (cacheAppends_associate_with_system _)
    intro u6
    exact cacheAppends_pure _
  · simp only [hc, if_false]
    simp only [Bool.false_eq_true, if_false]
    exact cacheAppends_pure _

theorem cacheAppends_translate_relation (a : RelationAssertion) (conf : Option ℚ) :
    cacheAppends (translate_relation a conf) := by
  cases conf with
  | none => exact cacheAppends_of_preserve fun s => rfl
  | some c =>
    unfold translate_relation
    apply cacheAppends_bind (cacheAppends_check_not_none _ _)
    intro u
    by_cases hE : a.sbj.isEntityNode
    · simp only [hE, if_true]
      apply cacheAppends_bind (cacheAppends_to_identifier _)
      intro sbj
      apply cacheAppends_bind (cacheAppends_to_identifier _)
      intro obj
      apply cacheAppends_bind (cacheAppends_nextNode _)
      intro rdf_assertion
      apply cacheAppends_bind cacheAppends_getS
      intro st
      apply cacheAppends_bind (cacheAppends_liftE _)
      intro rt
      apply cacheAppends_bind (cacheAppends_gAdd _)
      intro u2
      apply cacheAppends_bind (cacheAppends_gAdd _)
      intro u3
      apply cacheAppends_bind (cacheAppends_gAdd _)
      intro u4
      apply cacheAppends_bind
      · apply cacheAppends_bind cacheAppends_freshBNode
        intro cn
        apply cacheAppends_bind (cacheAppends_gAdd _)
        intro u5
        exact cacheAppends_gAdd _
      · intro u5
        apply cacheAppends_bind (cacheAppends_register_justifications _ _ _ _)
        intro u6
        exact cacheAppends_pure _
    · simp only [hE]
      simp only [Bool.false_eq_true, if_false]
      apply cacheAppends_bind (cacheAppends_pure _)
      intro u2
      exact cacheAppends_pure _

theorem cacheAppends_translate_event_argument (a : EventMentionAssertion) (conf : Option ℚ) :
    cacheAppends (translate_event_argument a conf) := by
  cases conf with
  | none => exact cacheAppends_of_preserve fun s => rfl
  | some c =>
    unfold translate_event_argument
    apply cacheAppends_bind (cacheAppends_check_not_none _ _)
    intro u
    by_cases hE : a.sbj.isEventNode
    · simp only [hE, if_true]
      apply cacheAppends_bind (cacheAppends_to_identifier _)
      intro sbj
      apply cacheAppends_bind (cacheAppends_to_identifier _)
      intro obj
      apply cacheAppends_bind (cacheAppends_nextNode _)
      intro rdf_assertion
      apply cacheAppends_bind cacheAppends_getS
      intro st
      apply cacheAppends_bind (cacheAppends_liftE _)
      intro rt
      apply cacheAppends_bind (cacheAppends_gAdd _)
      intro u2
      apply cacheAppends_bind (cacheAppends_gAdd _)
      intro u3
      apply cacheAppends_bind (cacheAppends_gAdd _)
      intro u4
      apply cacheAppends_bind
      · apply cacheAppends_bind cacheAppends_freshBNode
        intro cn
        apply cacheAppends_bind (cacheAppends_gAdd _)
        intro u5
        exact cacheAppends_gAdd _
      · intro u5
        apply cacheAppends_bind (cacheAppends_register_justifications _ _ _ _)
        intro u6
        exact cacheAppends_pure _
    · simp only [hE]
      simp only [Bool.false_eq_true, if_false]
      apply cacheAppends_bind (cacheAppends_pure _)
      intro u2
      exact cacheAppends_pure _

theorem cacheAppends_translate_entity_mention (assertion : Assertion)
    (a : EntityMentionAssertion) (conf : Option ℚ) :
    cacheAppends (translate_entity_mention assertion a conf) := by
  unfold translate_entity_mention
  apply cacheAppends_bind (cacheAppends_check_not_none _ _)
  intro u
  apply cacheAppends_bind (cacheAppends_to_identifier _)
  intro entity_uri
  apply cacheAppends_bind (cacheAppends_associate_with_system _)
  intro u2
  by_cases hc : a.type = CANONICAL_MENTION
  · simp only [hc, if_true]
    apply cacheAppends_bind (cacheAppends_gAdd _)
    intro u3
    apply cacheAppends_bind (cacheAppends_register_justifications _ _ _ _)
    intro u4
    exact cacheAppends_pure _
  · simp only [hc, if_false]
    apply cacheAppends_bind (cacheAppends_pure' _)
    intro u3
    apply cacheAppends_bind (cacheAppends_register_justifications _ _ _ _)
    intro u4
    exact cacheAppends_pure _

theorem cacheAppends_translate_link (a : LinkAssertion) (conf : Option ℚ) :
    cacheAppends (translate_link a conf) := by
  unfold translate_link
  apply cacheAppends_bind (cacheAppends_to_identifier _)
  intro entity_uri
  apply cacheAppends_bind cacheAppends_freshBNode
  intro link_assertion
  apply cacheAppends_bind (cacheAppends_gAdd _)
  intro u
  apply cacheAppends_bind (cacheAppends_gAdd _)
  intro u2
  apply cacheAppends_bind
  · cases conf with
    | some c =>
      apply cacheAppends_bind cacheAppends_freshBNode
      intro cn
      apply cacheAppends_bind (cacheAppends_gAdd _)
      intro u3
      exact cacheAppends_gAdd _
    | none => exact cacheAppends_pure _
  · intro u3
    exact cacheAppends_pure _

theorem cacheAppends_process_assertion (cs_kb : ColdStartKB) (assertion : Assertion) :
    cacheAppends (process_assertion cs_kb assertion) := by
  unfold process_assertion
  cases assertion with
  | typeAssertion a =>
    simp only [assertions_to_translator]
    apply cacheAppends_bind (cacheAppends_translate_type _ _)
    intro ok
    cases ok with
    | true => exact cacheAppends_pure _
    | false => exact cacheAppends_bump _
  | entityMentionAssertion a =>
    simp only [assertions_to_translator]
    apply cacheAppends_bind (cacheAppends_translate_entity_mention _ _ _)
    intro ok
    cases ok with
    | true => exact cacheAppends_pure _
    | false => exact cacheAppends_bump _
  | linkAssertion a =>
    simp only [assertions_to_translator]
    apply cacheAppends_bind (cacheAppends_translate_link _ _)
    intro ok
    cases ok with
    | true => exact cacheAppends_pure _
    | false => exact cacheAppends_bump _
  | relationAssertion a =>
    simp only [assertions_to_translator]
    apply cacheAppends_bind (cacheAppends_translate_relation _ _)
    intro ok
    cases ok with
    | true => exact cacheAppends_pure _
    | false => exact cacheAppends_bump _
  | eventMentionAssertion a =>
    simp only [assertions_to_translator]
    exact cacheAppends_bump _

theorem cacheAppends_convert_loop (cs_kb : ColdStartKB) (las : List Assertion) :
    cacheAppends (convert_loop cs_kb las) := by
  induction las with
  | nil => exact cacheAppends_pure _
  | cons a rest ih =>
    unfold convert_loop
    apply cacheAppends_bind (cacheAppends_process_assertion _ _)
    intro u
    exact ih

/-- Claim C1: the driver never dispatches an event-argument assertion: the
`assertions_to_translator` dictionary has no entry for
`EventMentionAssertion` (although `translate_event_argument` is fully
implemented), so an event-argument assertion with an event subject and a
present confidence produces no triples and is counted untranslatable,
contrary to the claim. -/
theorem driver_skips_event_argument_assertions :
    (defaultConverter.convert_coldstart_to_gaia [] "sys" kbEventArgWithConfidence).1 =
      Except.ok () ∧
    (defaultConverter.convert_coldstart_to_gaia [] "sys" kbEventArgWithConfidence).2.graph = [] ∧
    countOf (defaultConverter.convert_coldstart_to_gaia [] "sys"
        kbEventArgWithConfidence).2.untranslatable_assertions
      AssertionKind.eventMentionAssertion = 1 ∧
    assertions_to_translator (Assertion.eventMentionAssertion eventArgSample) (some 1) =
      none :=
  ⟨rfl, rfl, rfl, rfl⟩

/-- Claim C2: a relation assertion whose subject is not an entity node,
and an event-argument assertion whose subject is not an event node, are
reported as translated (`True`) with no triples emitted — the `return
True` sits outside the subject-kind conditional — so the driver does not
increment the untranslatable count, contrary to the claim. -/
theorem kind_mismatch_reported_as_translated :
    translate_relation relationStringSubject (some 2) exampleInitState =
      (Except.ok true, exampleInitState) ∧
    translate_event_argument eventArgEntitySubject (some 2) exampleInitState =
      (Except.ok true, exampleInitState) ∧
    (defaultConverter.convert_coldstart_to_gaia [] "sys" kbRelationStringSubject).1 =
      Except.ok () ∧
    (defaultConverter.convert_coldstart_to_gaia [] "sys" kbRelationStringSubject).2.graph = [] ∧
    (defaultConverter.convert_coldstart_to_gaia [] "sys"
        kbRelationStringSubject).2.untranslatable_assertions = [] :=
  ⟨rfl, rfl, rfl, rfl, rfl⟩

/-- Claim C3: `to_identifier` is memoized per source node within one run:
a successful resolution caches the token and an immediate re-resolution
returns the identical token with the state unchanged (no second mint); a
cached node resolves to its cached token without any state change; and
processing any list of assertions in the driver loop preserves every
existing cache entry, so all resolutions of a node agree across the
run. -/
theorem to_identifier_memoized :
    (∀ (s : ConvState) (n : Node) (t : Term) (s2 : ConvState),
        to_identifier n s = (Except.ok t, s2) →
        lookupNode s2.object_to_uri n = some t ∧ to_identifier n s2 = (Except.ok t, s2)) ∧
    (∀ (n : Node) (s : ConvState) (t : Term),
        (n.isEntityNode || n.isEventNode || n.isStringNode) = true →
        lookupNode s.object_to_uri n = some t →
        to_identifier n s = (Except.ok t, s)) ∧
    (∀ (cs_kb : ColdStartKB) (las : List Assertion) (s : ConvState)
        (r : Except ConvError Unit) (s2 : ConvState),
        convert_loop cs_kb las s = (r, s2) →
        ∀ (n : Node) (t : Term), lookupNode s.object_to_uri n = some t →
          lookupNode s2.object_to_uri n = some t) := by
  refine ⟨?_, ?_, ?_⟩
  · intro s n t s2 h
    rcases to_identifier_shape n s with ⟨e, he⟩ |
      ⟨t2, s2', hrun, -, -, -, -, -, -, hl, hre⟩
    · rw [he, Prod.mk.injEq] at h
      exact nomatch h.1
    · rw [hrun, Prod.mk.injEq] at h
      obtain ⟨h1, rfl⟩ := h
      injection h1 with h1
      subst h1
      exact ⟨hl, hre⟩
  · intro n s t hgood hl
    exact to_identifier_of_lookup n s t hgood hl
  · intro cs_kb las s r s2 h n t hl
    obtain ⟨tail, htail⟩ := cacheAppends_convert_loop cs_kb las s r s2 h
    rw [htail]
    exact lookupNode_append_left hl

theorem to_identifier_memoized_witness :
    lookupNode ((to_identifier (Node.entity 0) exampleInitState).2).object_to_uri
        (Node.entity 0) = some (Term.bnode 0) ∧
    to_identifier (Node.entity 0) ((to_identifier (Node.entity 0) exampleInitState).2) =
      (Except.ok (Term.bnode 0), (to_identifier (Node.entity 0) exampleInitState).2) :=
  to_identifier_memoized.1 exampleInitState (Node.entity 0) (Term.bnode 0)
    ((to_identifier (Node.entity 0) exampleInitState).2) rfl

/-- Claim C4: the three translators requiring confidences raise the
required-confidence (`check_not_none`) error with the state unchanged
when the confidence is absent — so the relation and entity-mention cases
abort the whole conversion before adding any triple — but an
event-argument assertion with absent confidence does NOT abort the
conversion: its translator is never dispatched (see C1), so the driver
counts it untranslatable and succeeds. -/
theorem required_confidence_enforcement :
    (∀ (a : RelationAssertion) (s : ConvState),
      translate_relation a none s =
        (Except.error (ConvError.checkNotNone "Relations must have confidences"), s)) ∧
    (∀ (a : EventMentionAssertion) (s : ConvState),
      translate_event_argument a none s =
        (Except.error (ConvError.checkNotNone "Relations must have confidences"), s)) ∧
    (∀ (assertion : Assertion) (a : EntityMentionAssertion) (s : ConvState),
      translate_entity_mention assertion a none s =
        (Except.error (ConvError.checkNotNone "Entity mentions must have confidences"), s)) ∧
    (∀ (conv : ColdStartToGaiaConverter) (lut : List (String × Term)) (system_uri : String)
      (a : RelationAssertion),
      conv.convert_coldstart_to_gaia lut system_uri
        { all_assertions := [Assertion.relationAssertion a],
          assertions_to_confidences := fun _ => none } =
        (Except.error (ConvError.checkNotNone "Relations must have confidences"),
         conv.initState lut system_uri)) ∧
    (∀ (conv : ColdStartToGaiaConverter) (lut : List (String × Term)) (system_uri : String)
      (a : EntityMentionAssertion),
      conv.convert_coldstart_to_gaia lut system_uri
        { all_assertions := [Assertion.entityMentionAssertion a],
          assertions_to_confidences := fun _ => none } =
        (Except.error (ConvError.checkNotNone "Entity mentions must have confidences"),
         conv.initState lut system_uri)) ∧
    (defaultConverter.convert_coldstart_to_gaia [] "sys" kbEventArgNoConfidence).1 =
      Except.ok () ∧
    (defaultConverter.convert_coldstart_to_gaia [] "sys" kbEventArgNoConfidence).2.graph = [] ∧
    countOf (defaultConverter.convert_coldstart_to_gaia [] "sys"
        kbEventArgNoConfidence).2.untranslatable_assertions
      AssertionKind.eventMentionAssertion = 1 :=
  ⟨fun a s => rfl, fun a s => rfl, fun assertion a s => rfl, fun conv lut uri a => rfl,
   fun conv lut uri a => rfl, rfl, rfl, rfl⟩

/-- Claim C5: a Type assertion carrying a non-absent confidence always
fails with the contract-violation (`check_arg`) error: the translator
raises with its state unchanged, and a conversion run over such an
assertion aborts with that error leaving the output graph empty. -/
theorem type_assertion_confidence_contract :
    (∀ (cs_assertion : TypeAssertion) (c : ℚ) (s : ConvState),
      translate_type cs_assertion (some c) s =
        (Except.error
          (ConvError.checkArg "Type assertions should not have confidences in ColdStart"), s)) ∧
    (∀ (conv : ColdStartToGaiaConverter) (lut : List (String × Term)) (system_uri : String)
      (cs_assertion : TypeAssertion) (c : ℚ),
      conv.convert_coldstart_to_gaia lut system_uri
        { all_assertions := [Assertion.typeAssertion cs_assertion],
          assertions_to_confidences := fun _ => some c } =
        (Except.error
          (ConvError.checkArg "Type assertions should not have confidences in ColdStart"),
         conv.initState lut system_uri)) :=
  ⟨fun a c s => rfl, fun conv lut uri a c => rfl⟩

/-- Claim C6: `to_ontology_type` maps the six built-in short codes (with
both spellings of the string code) to their ontology identifiers; any
code containing the namespace separator fails first as unsupported; and
any other unrecognized code resolves through the extension table when
present and otherwise fails as unknown. -/
theorem to_ontology_type_resolution (lut : List (String × Term)) :
    to_ontology_type lut "PER" = Except.ok AIDA_PROGRAM_ONTOLOGY.Person ∧
    to_ontology_type lut "ORG" = Except.ok AIDA_PROGRAM_ONTOLOGY.Organization ∧
    to_ontology_type lut "LOC" = Except.ok AIDA_PROGRAM_ONTOLOGY.Location ∧
    to_ontology_type lut "FAC" = Except.ok AIDA_PROGRAM_ONTOLOGY.Facility ∧
    to_ontology_type lut "GPE" = Except.ok AIDA_PROGRAM_ONTOLOGY.GeopoliticalEntity ∧
    to_ontology_type lut "STRING" = Except.ok AIDA_PROGRAM_ONTOLOGY.String ∧
    to_ontology_type lut "String" = Except.ok AIDA_PROGRAM_ONTOLOGY.String ∧
    (∀ code : String, code.data.contains ':' = true →
      to_ontology_type lut code =
        Except.error (ConvError.notImplemented "Not implemented yet")) ∧
    (∀ code : String, code.data.contains ':' = false → code ≠ "PER" → code ≠ "ORG" → code ≠ "LOC" →
      code ≠ "FAC" → code ≠ "GPE" → code ≠ "STRING" → code ≠ "String" →
      (∀ t, lookupStr lut code = some t → to_ontology_type lut code = Except.ok t) ∧
      (lookupStr lut code = none →
        to_ontology_type lut code =
          Except.error (ConvError.notImplemented ("Cannot interpret ontology type " ++ code)))) := by
  refine ⟨rfl, rfl, rfl, rfl, rfl, rfl, rfl, ?_, ?_⟩
  · intro code h
    have hm : ':' ∈ code.data := by simpa using h
    simp [to_ontology_type, hm]
  · intro code h0 h1 h2 h3 h4 h5 h6 h7
    have hm : ':' ∉ code.data := by simpa using h0
    constructor
    · intro t hl
      simp [to_ontology_type, hm, h1, h2, h3, h4, h5, h6, h7, hl]
    · intro hl
      simp [to_ontology_type, hm, h1, h2, h3, h4, h5, h6, h7, hl]

theorem to_ontology_type_resolution_witness :
    to_ontology_type [("partOf", Term.uri "ldcOnt:partOf")] "a:b" =
      Except.error (ConvError.notImplemented "Not implemented yet") ∧
    to_ontology_type [("partOf", Term.uri "ldcOnt:partOf")] "partOf" =
      Except.ok (Term.uri "ldcOnt:partOf") ∧
    to_ontology_type [("partOf", Term.uri "ldcOnt:partOf")] "FOO" =
      Except.error (ConvError.notImplemented ("Cannot interpret ontology type " ++ "FOO")) :=
  ⟨(to_ontology_type_resolution _).2.2.2.2.2.2.2.1 "a:b" rfl,
   ((to_ontology_type_resolution _).2.2.2.2.2.2.2.2 "partOf" rfl (by decide) (by decide)
       (by decide) (by decide) (by decide) (by decide) (by decide)).1 _ rfl,
   ((to_ontology_type_resolution _).2.2.2.2.2.2.2.2 "FOO" rfl (by decide) (by decide)
       (by decide) (by decide) (by decide) (by decide) (by decide)).2 rfl⟩

/-- Claim C7: every justification span encoded by `register_justifications`
yields a text-provenance node recording the provenance's document id, the
span's start offset unchanged, and the span's end offset plus one
(exclusive-to-inclusive conversion). -/
theorem register_justifications_offsets :
    ∀ (entity : Term) (provenance : Provenance) (string : Option String)
      (confidence : Option ℚ) (s : ConvState) (j : Span),
      j ∈ provenance.predicate_justifications →
      ∃ jn : Term,
        (jn, RDF.type, AIDA.TextProvenance) ∈
          ((register_justifications entity provenance string confidence) s).2.graph ∧
        (jn, AIDA.source, Term.litStr provenance.doc_id) ∈
          ((register_justifications entity provenance string confidence) s).2.graph ∧
        (jn, AIDA.startOffset, Term.litInt j.start) ∈
          ((register_justifications entity provenance string confidence) s).2.graph ∧
        (jn, AIDA.endOffsetInclusive, Term.litInt (j.endOff + 1)) ∈
          ((register_justifications entity provenance string confidence) s).2.graph := by
  intro entity provenance string confidence s j hj
  obtain ⟨k, h1, h2, h3, h4⟩ := rj_delta_mem_span s.system_node entity provenance.doc_id string
    confidence provenance.predicate_justifications s.nextBlank j hj
  refine ⟨Term.bnode k, ?_, ?_, ?_, ?_⟩
  · rw [register_justifications_run]
    exact List.mem_append.mpr (Or.inr h1)
  · rw [register_justifications_run]
    exact List.mem_append.mpr (Or.inr h2)
  · rw [register_justifications_run]
    exact List.mem_append.mpr (Or.inr h3)
  · rw [register_justifications_run]
    exact List.mem_append.mpr (Or.inr h4)

theorem register_justifications_offsets_witness :
    ∃ jn : Term,
      (jn, RDF.type, AIDA.TextProvenance) ∈
        ((register_justifications (Term.bnode 99) ⟨"D1", [⟨10, 15⟩]⟩ none none)
          exampleInitState).2.graph ∧
      (jn, AIDA.source, Term.litStr "D1") ∈
        ((register_justifications (Term.bnode 99) ⟨"D1", [⟨10, 15⟩]⟩ none none)
          exampleInitState).2.graph ∧
      (jn, AIDA.startOffset, Term.litInt 10) ∈
        ((register_justifications (Term.bnode 99) ⟨"D1", [⟨10, 15⟩]⟩ none none)
          exampleInitState).2.graph ∧
      (jn, AIDA.endOffsetInclusive, Term.litInt 16) ∈
        ((register_justifications (Term.bnode 99) ⟨"D1", [⟨10, 15⟩]⟩ none none)
          exampleInitState).2.graph :=
  register_justifications_offsets (Term.bnode 99) ⟨"D1", [⟨10, 15⟩]⟩ none none
    exampleInitState ⟨10, 15⟩ (by decide)

/-- Claim C9: `translate_entity_mention` resolves the node it
system-tags, labels, and justifies from the enclosing scope's loop
variable `assertion`, not from its parameter `cs_assertion`: called with a
loop variable whose subject is entity 2 while the passed assertion's
subject is entity 1, it tags and labels the token of entity 2 and never
resolves entity 1 at all. -/
theorem entity_mention_subject_aliasing :
    (translate_entity_mention outerLinkSample mentionSample (some 1)
        exampleInitState).1 = Except.ok true ∧
    (translate_entity_mention outerLinkSample mentionSample (some 1)
        exampleInitState).2.object_to_uri = [(Node.entity 2, Term.bnode 0)] ∧
    lookupNode (translate_entity_mention outerLinkSample mentionSample (some 1)
        exampleInitState).2.object_to_uri (Node.entity 1) = none ∧
    (Term.bnode 0, SKOS.prefLabel, Term.litStr "Biden") ∈
      (translate_entity_mention outerLinkSample mentionSample (some 1)
        exampleInitState).2.graph ∧
    (Term.bnode 0, AIDA.system, Term.uri "sys") ∈
      (translate_entity_mention outerLinkSample mentionSample (some 1)
        exampleInitState).2.graph := by
  refine ⟨rfl, rfl, rfl, ?_, ?_⟩ <;> decide

/-- Claim C8 counterexample: translating a link assertion with a present
confidence mints a confidence node (blank node 2) linked from the link
node, but the output graph contains no produced-by-system triple for it —
the full graph of the run is exhibited. -/
theorem confidence_system_tag_counterexample :
    (translate_link linkSample (some 1) exampleInitState).2.graph =
      [(Term.bnode 0, AIDA.link, Term.bnode 1),
       (Term.bnode 1, AIDA.linkTarget, Term.litStr "EXT1"),
       (Term.bnode 1, AIDA.confidence, Term.bnode 2),
       (Term.bnode 2, AIDA.confidenceValue, Term.litRat 1)] ∧
    (Term.bnode 1, AIDA.confidence, Term.bnode 2) ∈
      (translate_link linkSample (some 1) exampleInitState).2.graph ∧
    (Term.bnode 2, AIDA.system, Term.uri "sys") ∉
      (translate_link linkSample (some 1) exampleInitState).2.graph :=
  ⟨rfl, by decide, by decide⟩

/-- Claim C8 (amended): a confidence node minted by
`mark_single_assertion_confidence` (the path used for entity-mention
justification confidences) carries exactly one produced-by-system triple,
pointing at the run's system node; but the confidence nodes minted inline
by `translate_link`, `translate_relation` and `translate_event_argument`
carry none: `translate_link` adds no system triple at all, and in the
relation and event-argument translators any newly minted confidence-link
target gains no new system triple. -/
theorem confidence_system_tagging_amended :
    (∀ (reified_assertion : Term) (c : ℚ) (s : ConvState),
      mark_single_assertion_confidence reified_assertion c s =
        (Except.ok (), { s with
          nextBlank := s.nextBlank + 1,
          graph := s.graph ++
            [(reified_assertion, AIDA.confidence, Term.bnode s.nextBlank),
             (Term.bnode s.nextBlank, AIDA.confidenceValue, Term.litRat c),
             (Term.bnode s.nextBlank, AIDA.system, s.system_node)] })) ∧
    (∀ (la : LinkAssertion) (confidence : Option ℚ) (s : ConvState) (r : Except ConvError Bool)
      (s2 : ConvState), translate_link la confidence s = (r, s2) →
      ∀ x o, (x, AIDA.system, o) ∈ s2.graph → (x, AIDA.system, o) ∈ s.graph) ∧
    (∀ (ra : RelationAssertion) (c : ℚ) (s : ConvState) (r : Except ConvError Bool)
      (s2 : ConvState), translate_relation ra (some c) s = (r, s2) →
      ∀ x b, (x, AIDA.confidence, b) ∈ s2.graph → (x, AIDA.confidence, b) ∉ s.graph →
        ∀ o, (b, AIDA.system, o) ∈ s2.graph → (b, AIDA.system, o) ∈ s.graph) ∧
    (∀ (ea : EventMentionAssertion) (c : ℚ) (s : ConvState) (r : Except ConvError Bool)
      (s2 : ConvState), translate_event_argument ea (some c) s = (r, s2) →
      ∀ x b, (x, AIDA.confidence, b) ∈ s2.graph → (x, AIDA.confidence, b) ∉ s.graph →
        ∀ o, (b, AIDA.system, o) ∈ s2.graph → (b, AIDA.system, o) ∈ s.graph) :=
  ⟨mark_single_assertion_confidence_apply, translate_link_no_system,
   translate_relation_confidence_untagged, translate_event_argument_confidence_untagged⟩

theorem confidence_system_tagging_amended_witness :
    mark_single_assertion_confidence (Term.bnode 9) 2 exampleInitState =
      (Except.ok (), { exampleInitState with
        nextBlank := exampleInitState.nextBlank + 1,
        graph := exampleInitState.graph ++
          [(Term.bnode 9, AIDA.confidence, Term.bnode exampleInitState.nextBlank),
           (Term.bnode exampleInitState.nextBlank, AIDA.confidenceValue, Term.litRat 2),
           (Term.bnode exampleInitState.nextBlank, AIDA.system,
             exampleInitState.system_node)] }) ∧
    ((Term.bnode 3, AIDA.system, Term.uri "sys") ∈
        (translate_relation relationSample (some 2) exampleInitState).2.graph →
      (Term.bnode 3, AIDA.system, Term.uri "sys") ∈ exampleInitState.graph) :=
  ⟨confidence_system_tagging_amended.1 (Term.bnode 9) 2 exampleInitState,
   fun h => confidence_system_tagging_amended.2.2.1 relationSample 2 exampleInitState
     (translate_relation relationSample (some 2) exampleInitState).1
     (translate_relation relationSample (some 2) exampleInitState).2 rfl
     (Term.bnode 2) (Term.bnode 3) (by decide) (by decide) (Term.uri "sys") h⟩

/-- Claim C10: in `register_justifications`, a present confidence equal to
0 behaves exactly like an absent confidence — the run is literally the
same function of the state, and no confidence triple is added — while any
strictly positive confidence produces exactly one confidence node per
justification span. -/
theorem zero_confidence_truthiness :
    (∀ (entity : Term) (provenance : Provenance) (string : Option String) (s : ConvState),
      register_justifications entity provenance string (some 0) s =
        register_justifications entity provenance string none s) ∧
    (∀ (entity : Term) (provenance : Provenance) (string : Option String) (s : ConvState),
      (((register_justifications entity provenance string (some 0)) s).2.graph).countP
          isConfidenceTriple = (s.graph).countP isConfidenceTriple) ∧
    (∀ (entity : Term) (provenance : Provenance) (string : Option String) (c : ℚ)
      (s : ConvState), 0 < c →
      (((register_justifications entity provenance string (some c)) s).2.graph).countP
          isConfidenceTriple =
        (s.graph).countP isConfidenceTriple +
          provenance.predicate_justifications.length) := by
  refine ⟨?_, ?_, ?_⟩
  · intro entity provenance string s
    rw [register_justifications_run, register_justifications_run, rj_delta_zero_eq_none]
  · intro entity provenance string s
    rw [register_justifications_run]
    simp only [List.countP_append]
    rw [rj_delta_zero_eq_none, rj_delta_confidence_count_none]
    omega
  · intro entity provenance string c s hc
    rw [register_justifications_run]
    simp only [List.countP_append]
    rw [rj_delta_confidence_count_pos _ _ _ _ c (ne_of_gt hc)]

theorem zero_confidence_truthiness_witness :
    (((register_justifications (Term.bnode 99) ⟨"D1", [⟨10, 15⟩]⟩ none (some 1))
        exampleInitState).2.graph).countP isConfidenceTriple =
      ((exampleInitState.graph).countP isConfidenceTriple) + 1 :=
  zero_confidence_truthiness.2.2 (Term.bnode 99) ⟨"D1", [⟨10, 15⟩]⟩ none 1
    exampleInitState (by norm_num)
